import Mathlib

/-! Verification of the finanzpilot transaction-import and receipt-matching
core.

Shallow embedding of the algorithmic core of the backend:

* `app/features/transactions/finanzguru_parser.py` — locale parsers
  (`parse_german_date`, `parse_german_amount`), the import hasher
  (`generate_import_hash`) and the row normalisation loop of
  `parse_finanzguru_file`;
* `app/features/transactions/service.py` — the import orchestrator
  (`TransactionService.import_from_file`, statistics/deduplication loop);
* `app/features/receipts/service.py` — the receipt matcher
  (`find_matching_transactions`).

Python values are embedded as follows: `str` as `String` (ASCII fragment of
`str.strip`/`str.lower`/`int()` semantics, which is all the data of this
repository exercises), `datetime.date` as a record of numerals with the
constructor's range checks, `decimal.Decimal` (finite values) as sign ×
coefficient × exponent together with `_pydecimal`'s `__str__` algorithm,
machine-independent SHA-256 over UTF-8 bytes as a pure function on `List Nat`,
`None`/missing cells as `Option`, and raisable code as `Option`/`Except`.
-/

namespace Finanzpilot

/-! ## Python string primitives -/

/-- Whitespace recognised by Python's `str.strip()` (ASCII fragment). -/
def isPySpace (c : Char) : Bool :=
  c = ' ' ∨ c = '\t' ∨ c = '\n' ∨ c = '\r' ∨ c = '\x0b' ∨ c = '\x0c'

/-- `str.strip()` on a character list: drop leading and trailing whitespace. -/
def pyStripList (l : List Char) : List Char :=
  ((l.dropWhile isPySpace).reverse.dropWhile isPySpace).reverse

/-- Python `str.strip()`. -/
def pyStrip (s : String) : String := ⟨pyStripList s.data⟩

/-- Python `str.lower()` (ASCII fragment). -/
def pyLower (s : String) : String := ⟨s.data.map Char.toLower⟩

/-- Numeric value of a decimal digit character. -/
def digitVal (c : Char) : Nat := c.toNat - 48

/-- Digit run of a Python integer literal: digits separated by single
underscores (`1_2` is legal, `1__2`, `1_`, `_1` are not).  The first
character has already been checked to be a digit by `pyDigits`. -/
def pyDigitsAux : List Char → Nat → Option Nat
  | [], acc => some acc
  | [c], acc => if c.isDigit then some (10 * acc + digitVal c) else none
  | c :: c₂ :: cs, acc =>
    if c.isDigit then pyDigitsAux (c₂ :: cs) (10 * acc + digitVal c)
    else if c = '_' ∧ c₂.isDigit then pyDigitsAux cs (10 * acc + digitVal c₂)
    else none

/-- Unsigned digit part of Python `int(str)`. -/
def pyDigits (l : List Char) : Option Nat :=
  match l with
  | [] => none
  | c :: _ => if c.isDigit then pyDigitsAux l 0 else none

/-- Python `int(str)` on a character list: strip whitespace, optional sign,
then an underscore-separated digit run.  Fails (`ValueError`) otherwise. -/
def pyIntL (l : List Char) : Option Int :=
  match pyStripList l with
  | [] => none
  | c :: rest =>
    if c = '+' then (pyDigits rest).map Int.ofNat
    else if c = '-' then (pyDigits rest).map (fun n => -(n : Int))
    else (pyDigits (c :: rest)).map Int.ofNat

/-- Python `int(str)`. -/
def pyInt (s : String) : Option Int := pyIntL s.data

/-! ## Python `datetime.date` -/

/-- A Python `datetime.date`: the constructor guarantees
`1 ≤ year ≤ 9999`, `1 ≤ month ≤ 12`, `1 ≤ day ≤ days in month`. -/
structure PyDate where
  year : Nat
  month : Nat
  day : Nat
deriving DecidableEq, Repr

/-- Gregorian leap-year rule (as used by `datetime`). -/
def isLeapYear (y : Nat) : Bool := y % 4 = 0 ∧ (y % 100 ≠ 0 ∨ y % 400 = 0)

/-- Length of a month, as validated by the `datetime.date` constructor. -/
def daysInMonth (y m : Nat) : Nat :=
  if m = 2 then (if isLeapYear y then 29 else 28)
  else if m = 4 ∨ m = 6 ∨ m = 9 ∨ m = 11 then 30
  else 31

/-- `datetime.date(year, month, day)`: `some` on a structurally valid
calendar date in years 1–9999, `none` where the constructor raises
`ValueError`. -/
def mkPyDate (y m d : Int) : Option PyDate :=
  if 1 ≤ y ∧ y ≤ 9999 ∧ 1 ≤ m ∧ m ≤ 12 ∧ 1 ≤ d ∧ d ≤ (daysInMonth y.toNat m.toNat : Int) then
    some ⟨y.toNat, m.toNat, d.toNat⟩
  else none

/-- Zero-padded decimal numeral of fixed minimum width. -/
def padNum (width n : Nat) : String :=
  let ds := Nat.toDigits 10 n
  ⟨List.replicate (width - ds.length) '0' ++ ds⟩

/-- Python `str(date)`: ISO form `YYYY-MM-DD` (`%04d-%02d-%02d`). -/
def isoDate (d : PyDate) : String :=
  padNum 4 d.year ++ "-" ++ padNum 2 d.month ++ "-" ++ padNum 2 d.day

/-- The character `0`–`9` for a digit value. -/
def digitChar (n : Nat) : Char := Char.ofNat (48 + n)

/-- Modelled from the spec's words (§4.1, C6): a string matching the
`DD.MM.YYYY` pattern — two-digit day, two-digit month, four-digit year,
dot-separated — that denotes a valid calendar date. -/
def matchesDDMMYYYY (s : String) : Bool :=
  match s.data with
  | [d1, d2, c1, m1, m2, c2, y1, y2, y3, y4] =>
    c1 = '.' ∧ c2 = '.' ∧
    ([d1, d2, m1, m2, y1, y2, y3, y4].all Char.isDigit) ∧
    (mkPyDate (1000 * digitVal y1 + 100 * digitVal y2 + 10 * digitVal y3 + digitVal y4)
      (10 * digitVal m1 + digitVal m2) (10 * digitVal d1 + digitVal d2)).isSome
  | _ => false

/-! ## `parse_german_date` (finanzguru_parser.py lines 51-72)

```python
if not date_str or pd.isna(date_str):
    raise ValueError("Date string cannot be empty")
try:
    day, month, year = date_str.strip().split(".")
    return date(int(year), int(month), int(day))
except (ValueError, AttributeError) as e:
    raise ValueError(...) from e
```

The cell is `Option String`: `none` models a missing/NaN cell (`pd.isna`).
A raised `ValueError` is `none`. -/
def parse_german_date (cell : Option String) : Option PyDate :=
  match cell with
  | none => none
  | some s =>
    if s = "" then none
    else
      match (pyStripList s.data).splitOn '.' with
      | [d, m, y] => do
        let yi ← pyIntL y
        let mi ← pyIntL m
        let di ← pyIntL d
        mkPyDate yi mi di
      | _ => none

/-! ## Python `decimal.Decimal` (finite values)

`decimal.Decimal` stores a sign, a coefficient (digit string) and an
exponent.  `Decimal("-45.67")` is `(sign=1, coeff=4567, exp=-2)`.  The
embedding covers finite values; the special values `NaN`/`Infinity` are
modelled as parse failures (see `pyDecimalOfString`). -/
structure Dec where
  /-- `true` = negative sign (Python keeps `-0` distinct from `0`). -/
  sign : Bool
  /-- coefficient, as a natural number (leading zeros are not observable
  through any operation this code performs). -/
  mant : Nat
  /-- decimal exponent: the value is `±mant · 10^exp`. -/
  exp : Int
deriving DecidableEq, Repr

/-- Numeric value of a `Decimal`, as an exact rational. -/
def Dec.toRat (d : Dec) : ℚ :=
  (if d.sign then -1 else 1) * (d.mant : ℚ) * (10 : ℚ) ^ d.exp

/-- `str(Decimal)`, following `_pydecimal.Decimal.__str__` for finite
values: fixed-point notation when `exp ≤ 0` and the adjusted position of
the decimal point is above `-6`, scientific notation (`E%+d`) otherwise. -/
def decStr (d : Dec) : String :=
  let ds := Nat.toDigits 10 d.mant
  let n : Int := ds.length
  let leftdigits : Int := d.exp + n
  let sgn := if d.sign then "-" else ""
  if d.exp ≤ 0 ∧ leftdigits > -6 then
    if leftdigits ≤ 0 then
      sgn ++ "0." ++ ⟨List.replicate (-leftdigits).toNat '0'⟩ ++ ⟨ds⟩
    else if leftdigits ≥ n then
      sgn ++ ⟨ds⟩
    else
      sgn ++ ⟨ds.take leftdigits.toNat⟩ ++ "." ++ ⟨ds.drop leftdigits.toNat⟩
  else
    let e := leftdigits - 1
    let expStr := "E" ++ (if e ≥ 0 then "+" else "-") ++ ⟨Nat.toDigits 10 e.natAbs⟩
    if ds.length = 1 then sgn ++ ⟨ds⟩ ++ expStr
    else sgn ++ ⟨ds.take 1⟩ ++ "." ++ ⟨ds.drop 1⟩ ++ expStr

/-- Splits a character list at the first `e`/`E` (exponent marker of a
decimal literal); returns the mantissa part and, when a marker was found,
the remainder. -/
def splitExpMark : List Char → List Char × Option (List Char)
  | [] => ([], none)
  | c :: cs =>
    if c = 'e' ∨ c = 'E' then ([], some cs)
    else
      let r := splitExpMark cs
      (c :: r.1, r.2)

/-- Value of a plain (underscore-free) digit string. -/
def natOfDigitList (l : List Char) : Nat := l.foldl (fun a c => 10 * a + digitVal c) 0

/-- Exponent of a decimal literal: optional sign then plain digits
(the `decimal` grammar allows no underscores). -/
def decExpVal : List Char → Option Int
  | '+' :: rest =>
    if rest ≠ [] ∧ rest.all Char.isDigit then some (natOfDigitList rest : Int) else none
  | '-' :: rest =>
    if rest ≠ [] ∧ rest.all Char.isDigit then some (-(natOfDigitList rest : Int)) else none
  | rest =>
    if rest ≠ [] ∧ rest.all Char.isDigit then some (natOfDigitList rest : Int) else none

/-- `Decimal(str)` for finite numeric literals, per the `decimal` module
grammar: optional surrounding whitespace, optional sign, a mantissa
`digits [. digits] | . digits | digits .`, optional exponent `(e|E)
[sign] digits`.  `none` where the constructor signals `InvalidOperation`
(the special values `NaN`/`Infinity`, which the data of this repository
never produces, are also mapped to `none` — see the note at
`amount_score`). -/
def pyDecimalOfString (s : String) : Option Dec :=
  let l := pyStripList s.data
  let (sign, l) :=
    match l with
    | '-' :: r => (true, r)
    | '+' :: r => (false, r)
    | r => (false, r)
  let (mantL, expPart) := splitExpMark l
  let expVal : Option Int :=
    match expPart with
    | none => some 0
    | some e => decExpVal e
  match expVal with
  | none => none
  | some ev =>
    match mantL.splitOn '.' with
    | [ipart] =>
      if ipart ≠ [] ∧ ipart.all Char.isDigit then
        some ⟨sign, natOfDigitList ipart, ev⟩
      else none
    | [ipart, fpart] =>
      if (ipart ++ fpart) ≠ [] ∧ (ipart ++ fpart).all Char.isDigit then
        some ⟨sign, natOfDigitList (ipart ++ fpart), ev - fpart.length⟩
      else none
    | _ => none

/-! ## `parse_german_amount` (finanzguru_parser.py lines 75-97)

```python
if not amount_str or pd.isna(amount_str):
    raise ValueError("Amount string cannot be empty")
try:
    cleaned = str(amount_str).strip().replace(".", "").replace(",", ".")
    return Decimal(cleaned)
except (ValueError, InvalidOperation) as e:
    raise ValueError(...)
``` -/
def parse_german_amount (cell : Option String) : Option Dec :=
  match cell with
  | none => none
  | some s =>
    if s = "" then none
    else
      let cleaned := ((pyStripList s.data).filter (fun c => c ≠ '.')).map
        (fun c => if c = ',' then '.' else c)
      pyDecimalOfString ⟨cleaned⟩

/-! ## SHA-256 (`hashlib.sha256(data.encode("utf-8")).hexdigest()`)

Pure FIPS 180-4 SHA-256 over byte lists, bytes as `Nat` (`< 256`), words as
`Nat` reduced mod `2^32`. -/

/-- `2^32`, the word modulus. -/
def M32 : Nat := 4294967296

/-- Right rotation of a 32-bit word. -/
def rotr32 (n x : Nat) : Nat := ((x >>> n) ||| (x <<< (32 - n))) % M32

/-- Lowercase schedule sigma-0. -/
def schedSigmaA (x : Nat) : Nat := (rotr32 7 x) ^^^ (rotr32 18 x) ^^^ (x >>> 3)

/-- Lowercase schedule sigma-1. -/
def schedSigmaB (x : Nat) : Nat := (rotr32 17 x) ^^^ (rotr32 19 x) ^^^ (x >>> 10)

/-- Uppercase compression Sigma-0. -/
def roundSigmaA (x : Nat) : Nat := (rotr32 2 x) ^^^ (rotr32 13 x) ^^^ (rotr32 22 x)

/-- Uppercase compression Sigma-1. -/
def roundSigmaB (x : Nat) : Nat := (rotr32 6 x) ^^^ (rotr32 11 x) ^^^ (rotr32 25 x)

/-- Choice function `(x ∧ y) ⊕ (¬x ∧ z)` on 32-bit words. -/
def chF (x y z : Nat) : Nat := (x &&& y) ^^^ ((x ^^^ 4294967295) &&& z)

/-- Majority function. -/
def majF (x y z : Nat) : Nat := (x &&& y) ^^^ (x &&& z) ^^^ (y &&& z)

/-- The 64 SHA-256 round constants (FIPS 180-4 section 4.2.2, written in
decimal). -/
def K256 : List Nat :=
  [1116352408, 1899447441, 3049323471, 3921009573,
   961987163, 1508970993, 2453635748, 2870763221,
   3624381080, 310598401, 607225278, 1426881987,
   1925078388, 2162078206, 2614888103, 3248222580,
   3835390401, 4022224774, 264347078, 604807628,
   770255983, 1249150122, 1555081692, 1996064986,
   2554220882, 2821834349, 2952996808, 3210313671,
   3336571891, 3584528711, 113926993, 338241895,
   666307205, 773529912, 1294757372, 1396182291,
   1695183700, 1986661051, 2177026350, 2456956037,
   2730485921, 2820302411, 3259730800, 3345764771,
   3516065817, 3600352804, 4094571909, 275423344,
   430227734, 506948616, 659060556, 883997877,
   958139571, 1322822218, 1537002063, 1747873779,
   1955562222, 2024104815, 2227730452, 2361852424,
   2428436474, 2756734187, 3204031479, 3329325298]

/-- The eight hash registers. -/
structure H8 where
  a : Nat
  b : Nat
  c : Nat
  d : Nat
  e : Nat
  f : Nat
  g : Nat
  h : Nat
deriving DecidableEq, Repr

/-- SHA-256 initial hash value (FIPS 180-4 section 5.3.3, in decimal). -/
def initH : H8 :=
  { a := 1779033703, b := 3144134277, c := 1013904242, d := 2773480762,
    e := 1359893119, f := 2600822924, g := 528734635, h := 1541459225 }

/-- Big-endian byte expansion (`k` bytes). -/
def beBytes (k n : Nat) : List Nat :=
  (List.range k).map (fun i => (n >>> (8 * (k - 1 - i))) % 256)

/-- SHA-256 message padding: `0x80`, zeros to 56 mod 64, then the bit
length as 8 big-endian bytes. -/
def sha256Pad (msg : List Nat) : List Nat :=
  let len := msg.length
  msg ++ (128 :: List.replicate ((119 - len % 64) % 64) 0) ++ beBytes 8 (8 * len)

/-- Big-endian 32-bit words from a byte list. -/
def toWords : List Nat → List Nat
  | b0 :: b1 :: b2 :: b3 :: rest => (((b0 * 256 + b1) * 256 + b2) * 256 + b3) :: toWords rest
  | _ => []

/-- 64-byte blocks of a (padded) byte list; `fuel` bounds the recursion. -/
def chunksB (fuel : Nat) (l : List Nat) : List (List Nat) :=
  match fuel, l with
  | _, [] => []
  | 0, _ => []
  | n + 1, l => l.take 64 :: chunksB n (l.drop 64)

/-- Extend the 16 message words to the 64-entry schedule: each step appends
`σ1(w[i-2]) + w[i-7] + σ0(w[i-15]) + w[i-16] (mod 2^32)`. -/
def extSched (w : List Nat) : Nat → List Nat
  | 0 => w
  | i + 1 =>
    let p := extSched w i
    let t := (schedSigmaB (p.getD (p.length - 2) 0) + p.getD (p.length - 7) 0 +
              schedSigmaA (p.getD (p.length - 15) 0) + p.getD (p.length - 16) 0) % M32
    p ++ [t]

/-- One compression round with round constant `kw.1` and schedule word `kw.2`. -/
def round256 (st : H8) (kw : Nat × Nat) : H8 :=
  let t1 := (st.h + roundSigmaB st.e + chF st.e st.f st.g + kw.1 + kw.2) % M32
  let t2 := (roundSigmaA st.a + majF st.a st.b st.c) % M32
  ⟨(t1 + t2) % M32, st.a, st.b, st.c, (st.d + t1) % M32, st.e, st.f, st.g⟩

/-- Process one 64-byte block. -/
def processBlock (st : H8) (block : List Nat) : H8 :=
  let w := extSched (toWords block) 48
  let r := (K256.zip w).foldl round256 st
  ⟨(st.a + r.a) % M32, (st.b + r.b) % M32, (st.c + r.c) % M32, (st.d + r.d) % M32,
   (st.e + r.e) % M32, (st.f + r.f) % M32, (st.g + r.g) % M32, (st.h + r.h) % M32⟩

/-- SHA-256 of a byte list, as the final eight registers. -/
def sha256Regs (msg : List Nat) : H8 :=
  let padded := sha256Pad msg
  (chunksB padded.length padded).foldl processBlock initH

/-- Lowercase hexadecimal digit. -/
def hexc (n : Nat) : Char :=
  if n < 10 then Char.ofNat (48 + n) else Char.ofNat (87 + n)

/-- Eight lowercase hex characters of a 32-bit word, most significant first. -/
def wordHex (w : Nat) : List Char :=
  [hexc ((w >>> 28) % 16), hexc ((w >>> 24) % 16), hexc ((w >>> 20) % 16),
   hexc ((w >>> 16) % 16), hexc ((w >>> 12) % 16), hexc ((w >>> 8) % 16),
   hexc ((w >>> 4) % 16), hexc (w % 16)]

/-- UTF-8 encoding of one character. -/
def utf8Char (c : Char) : List Nat :=
  let n := c.toNat
  if n < 128 then [n]
  else if n < 2048 then [192 + n / 64, 128 + n % 64]
  else if n < 65536 then [224 + n / 4096, 128 + (n / 64) % 64, 128 + n % 64]
  else [240 + n / 262144, 128 + (n / 4096) % 64, 128 + (n / 64) % 64, 128 + n % 64]

/-- `s.encode("utf-8")` as a byte list. -/
def utf8Bytes (s : String) : List Nat := s.data.flatMap utf8Char

/-- `hashlib.sha256(s.encode("utf-8")).hexdigest()`. -/
def sha256Hex (s : String) : String :=
  let r := sha256Regs (utf8Bytes s)
  ⟨wordHex r.a ++ wordHex r.b ++ wordHex r.c ++ wordHex r.d ++
   wordHex r.e ++ wordHex r.f ++ wordHex r.g ++ wordHex r.h⟩

-- FIPS 180-4 test vectors.

/-! ## `generate_import_hash` (finanzguru_parser.py lines 117-137)

```python
data = f"{transaction_date}|{amount}|{counterparty}|{description}"
return hashlib.sha256(data.encode("utf-8")).hexdigest()
```

The f-string interpolates `str(transaction_date)` (= `isoDate`) and
`str(amount)` (= `decStr`, the scale-preserving `Decimal.__str__`, NOT a
fixed two-decimal rendering). -/
def generate_import_hash (transaction_date : PyDate) (amount : Dec)
    (counterparty description : String) : String :=
  sha256Hex (isoDate transaction_date ++ "|" ++ decStr amount ++ "|" ++
    counterparty ++ "|" ++ description)

/-- The canonical pre-hash string the CODE builds (the f-string above). -/
def codeCanonicalString (transaction_date : PyDate) (amount : Dec)
    (counterparty description : String) : String :=
  isoDate transaction_date ++ "|" ++ decStr amount ++ "|" ++
    counterparty ++ "|" ++ description

/-- Coefficient of a `Dec` rescaled to exponent `-2` (exact when the
exponent is ≥ `-2`; truncating otherwise). -/
def toCents (a : Dec) : Nat :=
  match a.exp with
  | .ofNat k => a.mant * 10 ^ k * 100
  | .negSucc k => a.mant * 100 / 10 ^ (k + 1)

/-- Modelled from the spec's words (§4.2) for the refinement comparison of
C7: "amount printed with fixed 2 decimals" — the amount rescaled to a
two-decimal coefficient and rendered by the decimal printer, which on
exponent `-2` always prints `sign`, integer part, point, two fraction
digits. -/
def specFixedTwo (amount : Dec) : String :=
  decStr ⟨amount.sign, toCents amount, -2⟩

/-- Modelled from the spec's words (§4.2): canonical string with the
amount in fixed two-decimal form. -/
def specCanonicalString (transaction_date : PyDate) (amount : Dec)
    (counterparty description : String) : String :=
  isoDate transaction_date ++ "|" ++ specFixedTwo amount ++ "|" ++
    counterparty ++ "|" ++ description

/-! ## `parse_finanzguru_file` row loop (finanzguru_parser.py lines 175-238)

A source row's claim-relevant cells; `none` models a missing column or a
NaN cell (`pd.isna`).  The ~20 optional metadata columns copied verbatim
at lines 204-229 are carried as an opaque `extra` payload: that block
cannot raise, is executed after the hash is computed, and no claim
mentions those fields. -/
structure RawRow where
  buchungstag : Option String
  betrag : Option String
  beguenstigter : Option String
  verwendungszweck : Option String
  extra : List (String × String) := []
deriving DecidableEq, Repr

/-- A normalised transaction dict as produced by the row loop (core
fields). -/
structure ParsedRow where
  date : PyDate
  amount : Dec
  counterparty : String
  description : String
  import_hash : String
  extra : List (String × String) := []
deriving DecidableEq, Repr

/-- `str(cell).strip()` with the NaN guard of lines 181-187: a missing/NaN
cell becomes `""`, never the string `"nan"`. -/
def cellText (cell : Option String) : String :=
  match cell with
  | none => ""
  | some s => pyStrip s

/-- One iteration of the `for idx, row in df.iterrows()` body (lines
176-231): parse date and amount (raising skips the row, `none`), normalise
counterparty/description, compute the import hash. -/
def parseRow (r : RawRow) : Option ParsedRow :=
  match parse_german_date r.buchungstag, parse_german_amount r.betrag with
  | some d, some a =>
    let cp := cellText r.beguenstigter
    let ds := cellText r.verwendungszweck
    some ⟨d, a, cp, ds, generate_import_hash d a cp ds, r.extra⟩
  | _, _ => none

/-- The whole row loop: failed rows are logged and dropped (`continue`),
successful rows are appended in source order. -/
def parse_finanzguru_rows (rows : List RawRow) : List ParsedRow :=
  rows.filterMap parseRow

/-! ## Import orchestrator (`TransactionService.import_from_file`,
service.py lines 177-293)

Persistence is the only effectful step inside the per-row `try`; it is
abstracted by a `RowOutcome` attached to each row: `ok` models an
exception-free iteration, the `raise*` outcomes model an exception
anywhere in the row's `try` block (lines 202-284) — including a
storage-layer `(user_id, import_hash)` uniqueness violation surfacing
through the session (`raiseIntegrity`).  The code's handler is
`except Exception` (lines 285-288) and does not distinguish them. -/
inductive RowOutcome
  | ok
  | raiseIntegrity
  | raiseOther
deriving DecidableEq, Repr

/-- Mutable state of the import loop. -/
structure ImportState where
  existing : List String
  imported : Nat
  skipped : Nat
  errors : Nat
  persisted : List ParsedRow
deriving Repr

/-- One iteration of `for tx_data in parsed_transactions` (lines 201-288):
duplicate check against `existing_hashes` first (counts `skipped`), then
the row body — `ok` persists the row, counts `imported` and adds the hash
to the working set (lines 278-283, guarded by `if tx_data["import_hash"]`);
any exception counts `errors` (lines 285-288). -/
def importStep (skipDuplicates : Bool) (st : ImportState) (r : ParsedRow × RowOutcome) :
    ImportState :=
  if skipDuplicates ∧ r.1.import_hash ∈ st.existing then
    { st with skipped := st.skipped + 1 }
  else
    match r.2 with
    | .ok =>
      { st with
        imported := st.imported + 1
        persisted := st.persisted ++ [r.1]
        existing :=
          if r.1.import_hash ≠ "" then st.existing ++ [r.1.import_hash] else st.existing }
    | _ => { st with errors := st.errors + 1 }

/-- Import statistics, as in `TransactionImportResponse`. -/
structure ImportStats where
  total_rows : Nat
  imported : Nat
  skipped : Nat
  errors : Nat
deriving DecidableEq, Repr

/-- Result of an import run: the statistics and the rows staged for commit. -/
structure ImportResult where
  stats : ImportStats
  persisted : List ParsedRow
deriving Repr

/-- `TransactionService.import_from_file` from the statistics block on
(lines 177-293), for already-parsed rows.  `dbHashes` is the set of
`import_hash` values persisted for this user; the bulk pre-fetch (lines
186-198) restricts it to hashes occurring in the batch.  Each row carries
its `RowOutcome` (see above). -/
def runImport (skipDuplicates : Bool) (dbHashes : List String)
    (rows : List (ParsedRow × RowOutcome)) : ImportResult :=
  let initialExisting :=
    if skipDuplicates ∧ rows ≠ [] then
      dbHashes.filter (fun h => h ∈ rows.map (fun r => r.1.import_hash))
    else []
  let final := rows.foldl (importStep skipDuplicates)
    ⟨initialExisting, 0, 0, 0, []⟩
  ⟨⟨rows.length, final.imported, final.skipped, final.errors⟩, final.persisted⟩

/-! ## Receipt matcher (`find_matching_transactions`, receipts/service.py
lines 182-285)

The receipt's `extracted_data` is an untyped JSON object; its values are
embedded as `JValue` and a missing key as `none`. -/
inductive JValue
  | jnull
  | jstr (s : String)
  | jnum (q : ℚ)
deriving DecidableEq, Repr

/-- Python truthiness of a `JValue` (`None`, `""` and `0` are falsy).
JSON numbers are embedded as exact rationals (the claims only involve
short decimal literals, which `str(float)` round-trips exactly). -/
def jTruthy : JValue → Bool
  | .jnull => false
  | .jstr s => s ≠ ""
  | .jnum q => q ≠ 0

/-- The claim-relevant shape of `receipt.extracted_data`
(`merchant`, `date`, `total`; each key possibly absent). -/
structure ExtractedData where
  merchant : Option JValue := none
  date : Option JValue := none
  total : Option JValue := none
deriving Repr

/-- Exceptions `find_matching_transactions` can let escape. -/
inductive PyErr
  | attributeError
  | invalidOperation
deriving DecidableEq, Repr

instance {ε α : Type} [DecidableEq ε] [DecidableEq α] : DecidableEq (Except ε α) := fun x y =>
  match x, y with
  | .error e, .error f =>
    if h : e = f then isTrue (by rw [h]) else isFalse (fun hh => h (Except.error.inj hh))
  | .ok a, .ok b =>
    if h : a = b then isTrue (by rw [h]) else isFalse (fun hh => h (Except.ok.inj hh))
  | .error _, .ok _ => isFalse (fun hh => Except.noConfusion hh)
  | .ok _, .error _ => isFalse (fun hh => Except.noConfusion hh)

/-- `merchant = extracted_data.get('merchant', '').lower()` (line 209):
an absent key defaults to `''`; a present non-string value (JSON `null`,
a number) has no `.lower()` and raises `AttributeError`. -/
def extractMerchant : Option JValue → Except PyErr String
  | none => .ok ""
  | some (.jstr s) => .ok (pyLower s)
  | some _ => .error .attributeError

/-- `extracted_data.get('date') if isinstance(..., str) else None`
(line 207). -/
def extractDateStr : Option JValue → Option String
  | some (.jstr s) => some s
  | _ => none

/-- `datetime.strptime(s, '%Y-%m-%d').date()`: four-digit year, `-`,
one-or-two-digit month `1..12`, `-`, one-or-two-digit day `1..31`
(`_strptime`'s regexes), whole string consumed, then the `datetime`
constructor's calendar check. -/
def pyStrptimeYmd (s : String) : Option PyDate :=
  match s.data.splitOn '-' with
  | [y, m, d] =>
    if y.length = 4 ∧ y.all Char.isDigit ∧
       1 ≤ m.length ∧ m.length ≤ 2 ∧ m.all Char.isDigit ∧
       1 ≤ d.length ∧ d.length ≤ 2 ∧ d.all Char.isDigit ∧
       1 ≤ natOfDigitList m ∧ natOfDigitList m ≤ 12 ∧
       1 ≤ natOfDigitList d ∧ natOfDigitList d ≤ 31 then
      mkPyDate (natOfDigitList y) (natOfDigitList m) (natOfDigitList d)
    else none
  | _ => none

/-- Proleptic-Gregorian day number (as `date.toordinal` up to a constant
shift, so ordinal differences — Python `(d1 - d2).days` — agree).  Valid
for years ≥ 1, which `PyDate` guarantees. -/
def rataDie (dt : PyDate) : Int :=
  let y : Int := if dt.month ≤ 2 then (dt.year : Int) - 1 else dt.year
  let m : Int := if dt.month ≤ 2 then (dt.month : Int) + 12 else dt.month
  365 * y + y / 4 - y / 100 + y / 400 + (153 * (m - 3) + 2) / 5 + dt.day

/-- `(a - b).days` for Python dates. -/
def dayDiff (a b : PyDate) : Int := rataDie a - rataDie b

/-- A transaction row as seen by the matcher (`Transaction` columns used
at lines 235-280; `counterparty` is nullable, amounts are exact DB
numerics). -/
structure MTxn where
  date : PyDate
  amount : ℚ
  counterparty : Option String := none
deriving DecidableEq, Repr

/-- Date component of the score (lines 238-250): re-parse the receipt
date; a parse failure is caught and contributes 0. -/
def dateScore (receiptDate : Option String) (t : MTxn) : ℚ :=
  match receiptDate with
  | none => 0
  | some s =>
    match pyStrptimeYmd s with
    | none => 0
    | some d0 =>
      let dd := (dayDiff t.date d0).natAbs
      if dd = 0 then 40 else if dd ≤ 2 then 30 else if dd ≤ 7 then 20 else 0

/-- `Decimal(str(receipt_total))` (line 255).  A non-numeric string raises
`InvalidOperation`, which the `except (ValueError, TypeError,
AttributeError)` at line 267 does NOT catch.  (Python would build a quiet
`NaN` from the literal `"nan"` and signal `InvalidOperation` at the first
`<=` comparison instead; the escaping exception is the same.) -/
def totalToRat : JValue → Except PyErr ℚ
  | .jnum q => .ok q
  | .jstr s =>
    match pyDecimalOfString s with
    | some d => .ok d.toRat
    | none => .error .invalidOperation
  | .jnull => .error .invalidOperation

/-- Amount component of the score (lines 252-268): computed only when both
`receipt_total` and `txn.amount` are truthy (nonzero / non-empty). -/
def amount_score (total : Option JValue) (t : MTxn) : Except PyErr ℚ :=
  match total with
  | none => .ok 0
  | some v =>
    if jTruthy v ∧ t.amount ≠ 0 then
      (match totalToRat v with
       | .error e => .error e
       | .ok r =>
         let diff := abs (abs r - abs t.amount)
         .ok (if diff = 0 then 40
              else if diff ≤ 1 / 100 then 35
              else if diff ≤ 1 then 25
              else if diff ≤ 5 then 15
              else 0))
    else .ok 0

/-- Python `needle in haystack` on strings. -/
def strIn (needle haystack : String) : Bool :=
  haystack.data.tails.any (fun t => needle.data.isPrefixOf t)

/-- Python `str.split()` with no separator: split on whitespace runs,
discarding empty fields. -/
def pySplitWs (s : String) : List String :=
  ((s.data.splitOnP isPySpace).filter (fun w => w ≠ [])).map (fun w => ⟨w⟩)

/-- Merchant component of the score (lines 270-276): computed only when
the lowered merchant and the counterparty are truthy; 20 for a mutual
substring hit, else 10 when any merchant word longer than 3 characters
occurs in the counterparty. -/
def merchant_score (merchant : String) (t : MTxn) : ℚ :=
  match t.counterparty with
  | none => 0
  | some cp =>
    if merchant ≠ "" ∧ cp ≠ "" then
      let cl := pyLower cp
      if strIn merchant cl ∨ strIn cl merchant then 20
      else if (pySplitWs merchant).any (fun w => w.length > 3 ∧ strIn w cl) then 10
      else 0
    else 0

/-- Total confidence score of one transaction (lines 236-276). -/
def scoreTxn (merchant : String) (receiptDate : Option String)
    (total : Option JValue) (t : MTxn) : Except PyErr ℚ := do
  let a ← amount_score total t
  .ok (dateScore receiptDate t + a + merchant_score merchant t)

/-- The candidate pool (lines 211-231): the user's transactions, narrowed
to ±7 days of the receipt date when that parses (the date comparison is
embedded through the day-number bijection `rataDie`), capped at 100. -/
def candidatePool (receiptDate : Option String) (txns : List MTxn) : List MTxn :=
  let base :=
    match receiptDate.bind pyStrptimeYmd with
    | some d0 =>
      txns.filter (fun (t : MTxn) =>
        rataDie d0 - 7 ≤ rataDie t.date ∧ rataDie t.date ≤ rataDie d0 + 7)
    | none => txns
  base.take 100

/-- `find_matching_transactions(db, receipt, user_id, max_results)`
(lines 182-285): extract merchant/date/total, score the candidate pool,
keep scores ≥ 10, sort by descending score (stable), truncate. -/
def find_matching_transactions (ed : ExtractedData) (txns : List MTxn)
    (maxResults : Nat) : Except PyErr (List (MTxn × ℚ)) := do
  let merchant ← extractMerchant ed.merchant
  let scored ← (candidatePool (extractDateStr ed.date) txns).mapM (fun t => do
    let s ← scoreTxn merchant (extractDateStr ed.date) ed.total t
    Except.ok (t, s))
  Except.ok (((scored.filter (fun p => 10 ≤ p.2)).mergeSort
    (fun p q => q.2 ≤ p.2)).take maxResults)

/-! ## Reference evaluations

Concrete sanity checks of the embedding, each verified against the
behaviour of CPython 3 / `hashlib` / `decimal` / `datetime` on the same
inputs (the SHA-256 cases are the FIPS 180-4 test vectors). -/

example : parse_german_date (some "15.01.2024") = some ⟨2024, 1, 15⟩ := by decide
example : parse_german_date (some "29.02.2024") = some ⟨2024, 2, 29⟩ := by decide
example : parse_german_date (some "32.01.2024") = none := by decide
example : parse_german_date (some "2024-01-15") = none := by decide
example : parse_german_date (some "5.1.2024") = some ⟨2024, 1, 5⟩ := by decide
example : parse_german_date (some "  ") = none := by decide
example : decStr ⟨true, 4567, -2⟩ = "-45.67" := by decide
example : decStr ⟨false, 250000, -2⟩ = "2500.00" := by decide
example : decStr ⟨false, 5, 0⟩ = "5" := by decide
example : decStr ⟨false, 0, -2⟩ = "0.00" := by decide
example : decStr ⟨false, 5, -3⟩ = "0.005" := by decide
example : decStr ⟨false, 15, -8⟩ = "1.5E-7" := by decide
example : decStr ⟨false, 1, 2⟩ = "1E+2" := by decide
example : decStr ⟨true, 0, -2⟩ = "-0.00" := by decide
example : pyDecimalOfString "-45.67" = some ⟨true, 4567, -2⟩ := by decide
example : pyDecimalOfString "2500.00" = some ⟨false, 250000, -2⟩ := by decide
example : pyDecimalOfString "5" = some ⟨false, 5, 0⟩ := by decide
example : pyDecimalOfString "12." = some ⟨false, 12, 0⟩ := by decide
example : pyDecimalOfString ".5" = some ⟨false, 5, -1⟩ := by decide
example : pyDecimalOfString "1E+2" = some ⟨false, 1, 2⟩ := by decide
example : pyDecimalOfString "1e-2" = some ⟨false, 1, -2⟩ := by decide
example : pyDecimalOfString "invalid" = none := by decide
example : pyDecimalOfString "" = none := by decide
example : pyDecimalOfString "." = none := by decide
example : pyDecimalOfString "1.2.3" = none := by decide
example : parse_german_amount (some "-45,67") = some ⟨true, 4567, -2⟩ := by decide
example : parse_german_amount (some "2.500,00") = some ⟨false, 250000, -2⟩ := by decide
example : parse_german_amount (some "0,00") = some ⟨false, 0, -2⟩ := by decide
example : parse_german_amount (some "invalid") = none := by decide
example : parse_german_amount (some "") = none := by decide
example : parse_german_amount none = none := by decide
example : sha256Hex "" = "e3b0c44298fc1c149afbf4c8996fb92427ae41e4649b934ca495991b7852b855" := by
  decide
example : sha256Hex "abc" = "ba7816bf8f01cfea414140de5dae2223b00361a396177a9cb410ff61f20015ad" := by
  decide
example : specFixedTwo ⟨false, 5, 0⟩ = "5.00" := by decide
example : specFixedTwo ⟨true, 4567, -2⟩ = "-45.67" := by decide
example : pyStrptimeYmd "2026-01-21" = some ⟨2026, 1, 21⟩ := by decide
example : pyStrptimeYmd "2024-02-30" = none := by decide
example : pyStrptimeYmd "not-a-date" = none := by decide
example : dayDiff ⟨2024, 3, 1⟩ ⟨2024, 2, 28⟩ = 2 := by decide
example : dayDiff ⟨2023, 3, 1⟩ ⟨2023, 2, 28⟩ = 1 := by decide
example : dayDiff ⟨2024, 1, 3⟩ ⟨2023, 12, 29⟩ = 5 := by decide
example : strIn "" "abc" = true := by decide
example : strIn "bc" "abc" = true := by decide
example : strIn "ac" "abc" = false := by decide
example : pySplitWs "aldi sued  markt" = ["aldi", "sued", "markt"] := by decide
example : pySplitWs "  " = [] := by decide

/-! ## Lemmas about the import loop -/

theorem importStep_count (sd : Bool) (st : ImportState) (r : ParsedRow × RowOutcome) :
    (importStep sd st r).imported + (importStep sd st r).skipped + (importStep sd st r).errors
      = st.imported + st.skipped + st.errors + 1 := by
  rcases r with ⟨row, out⟩
  unfold importStep
  by_cases hc : sd = true ∧ row.import_hash ∈ st.existing
  · rw [if_pos hc]; dsimp only; omega
  · rw [if_neg hc]
    cases out <;> dsimp only <;> omega

theorem importFold_counts (sd : Bool) (rs : List (ParsedRow × RowOutcome)) :
    ∀ st : ImportState,
      (rs.foldl (importStep sd) st).imported + (rs.foldl (importStep sd) st).skipped +
        (rs.foldl (importStep sd) st).errors
      = st.imported + st.skipped + st.errors + rs.length := by
  induction rs with
  | nil => intro st; simp
  | cons r rs ih =>
    intro st
    rw [List.foldl_cons, ih]
    have := importStep_count sd st r
    simp only [List.length_cons]
    omega

theorem importStep_existing_mono (sd : Bool) (st : ImportState) (r : ParsedRow × RowOutcome) :
    ∀ h ∈ st.existing, h ∈ (importStep sd st r).existing := by
  intro h hm
  unfold importStep
  by_cases hc : sd = true ∧ r.1.import_hash ∈ st.existing
  · rw [if_pos hc]; exact hm
  · rw [if_neg hc]
    cases r.2 <;> simp only []
    · by_cases hne : r.1.import_hash ≠ ""
      · rw [if_pos hne]; exact List.mem_append_left _ hm
      · rw [if_neg hne]; exact hm
    · exact hm
    · exact hm

theorem importStep_persisted_mono (sd : Bool) (st : ImportState) (r : ParsedRow × RowOutcome) :
    ∀ t ∈ st.persisted, t ∈ (importStep sd st r).persisted := by
  intro t hm
  unfold importStep
  by_cases hc : sd = true ∧ r.1.import_hash ∈ st.existing
  · rw [if_pos hc]; exact hm
  · rw [if_neg hc]
    cases r.2 <;> simp only []
    · exact List.mem_append_left _ hm
    · exact hm
    · exact hm

theorem importStep_skipped_mono (sd : Bool) (st : ImportState) (r : ParsedRow × RowOutcome) :
    st.skipped ≤ (importStep sd st r).skipped := by
  unfold importStep
  by_cases hc : sd = true ∧ r.1.import_hash ∈ st.existing
  · rw [if_pos hc]; simp
  · rw [if_neg hc]
    cases r.2 <;> simp

theorem importFold_existing_mono (sd : Bool) (rs : List (ParsedRow × RowOutcome)) :
    ∀ st, ∀ h ∈ st.existing, h ∈ (rs.foldl (importStep sd) st).existing := by
  induction rs with
  | nil => intro st h hm; exact hm
  | cons r rs ih =>
    intro st h hm
    rw [List.foldl_cons]
    exact ih _ h (importStep_existing_mono sd st r h hm)

theorem importFold_persisted_mono (sd : Bool) (rs : List (ParsedRow × RowOutcome)) :
    ∀ st, ∀ t ∈ st.persisted, t ∈ (rs.foldl (importStep sd) st).persisted := by
  induction rs with
  | nil => intro st t hm; exact hm
  | cons r rs ih =>
    intro st t hm
    rw [List.foldl_cons]
    exact ih _ t (importStep_persisted_mono sd st r t hm)

/-- Rows all of whose hashes are already in the working set are all
skipped: nothing is imported, nothing persisted, no errors. -/
theorem importFold_skip_all (rs : List (ParsedRow × RowOutcome)) :
    ∀ st : ImportState, (∀ r ∈ rs, r.1.import_hash ∈ st.existing) →
      (rs.foldl (importStep true) st).imported = st.imported ∧
      (rs.foldl (importStep true) st).errors = st.errors ∧
      (rs.foldl (importStep true) st).skipped = st.skipped + rs.length ∧
      (rs.foldl (importStep true) st).persisted = st.persisted := by
  induction rs with
  | nil => intro st _; simp
  | cons r rs ih =>
    intro st hall
    rw [List.foldl_cons]
    have hst : importStep true st r = { st with skipped := st.skipped + 1 } := by
      unfold importStep
      rw [if_pos ⟨rfl, hall r (List.mem_cons_self r rs)⟩]
    rw [hst]
    have := ih { st with skipped := st.skipped + 1 }
      (fun r' hr' => hall r' (List.mem_cons_of_mem r hr'))
    refine ⟨this.1, this.2.1, ?_, this.2.2.2⟩
    rw [this.2.2.1]
    simp only [List.length_cons]
    omega

/-- Elements persisted by the loop come from its input rows. -/
theorem importFold_persisted_src (sd : Bool) (rs : List (ParsedRow × RowOutcome)) :
    ∀ st, ∀ t ∈ (rs.foldl (importStep sd) st).persisted,
      t ∈ st.persisted ∨ t ∈ rs.map Prod.fst := by
  induction rs with
  | nil => intro st t hm; exact Or.inl hm
  | cons r rs ih =>
    intro st t hm
    rw [List.foldl_cons] at hm
    rcases ih _ t hm with h | h
    · unfold importStep at h
      by_cases hc : sd = true ∧ r.1.import_hash ∈ st.existing
      · rw [if_pos hc] at h; exact Or.inl h
      · rw [if_neg hc] at h
        cases hr2 : r.2 <;> rw [hr2] at h <;> simp only [] at h
        · rcases List.mem_append.mp h with h' | h'
          · exact Or.inl h'
          · refine Or.inr ?_
            rw [List.mem_singleton.mp h']
            exact List.mem_map.mpr ⟨r, List.mem_cons_self r rs, rfl⟩
        · exact Or.inl h
        · exact Or.inl h
    · rcases List.mem_map.mp h with ⟨r', hr', he⟩
      exact Or.inr (List.mem_map.mpr ⟨r', List.mem_cons_of_mem r hr', he⟩)

/-- Working-set/deduplication invariant: with `skipDuplicates=true` and
nonempty hashes, every persisted row's hash is in the working set and the
persisted hashes are pairwise distinct. -/
theorem importFold_dedup_inv (rs : List (ParsedRow × RowOutcome)) :
    ∀ st : ImportState,
      (∀ r ∈ rs, r.1.import_hash ≠ "") →
      (∀ t ∈ st.persisted, t.import_hash ∈ st.existing) →
      ((st.persisted.map ParsedRow.import_hash).Nodup) →
      (∀ t ∈ (rs.foldl (importStep true) st).persisted,
        t.import_hash ∈ (rs.foldl (importStep true) st).existing) ∧
      (((rs.foldl (importStep true) st).persisted.map ParsedRow.import_hash).Nodup) := by
  induction rs with
  | nil => intro st _ h1 h2; exact ⟨h1, h2⟩
  | cons r rs ih =>
    intro st hne h1 h2
    rw [List.foldl_cons]
    by_cases hc : (true = true) ∧ r.1.import_hash ∈ st.existing
    · have hst : importStep true st r = { st with skipped := st.skipped + 1 } := by
        unfold importStep; rw [if_pos hc]
      rw [hst]
      exact ih _ (fun r' hr' => hne r' (List.mem_cons_of_mem r hr')) h1 h2
    · have hnotin : r.1.import_hash ∉ st.existing := fun hm => hc ⟨rfl, hm⟩
      cases hr2 : r.2 with
      | ok =>
        have hst : importStep true st r =
            { st with
              imported := st.imported + 1
              persisted := st.persisted ++ [r.1]
              existing := st.existing ++ [r.1.import_hash] } := by
          unfold importStep
          rw [if_neg hc, hr2]
          rw [if_pos (hne r (List.mem_cons_self r rs))]
        rw [hst]
        refine ih _ (fun r' hr' => hne r' (List.mem_cons_of_mem r hr')) ?_ ?_
        · intro t ht
          rcases List.mem_append.mp ht with h' | h'
          · exact List.mem_append_left _ (h1 t h')
          · rw [List.mem_singleton.mp h']
            exact List.mem_append_right _ (List.mem_singleton_self _)
        · simp only [List.map_append, List.map_cons, List.map_nil]
          rw [List.nodup_append]
          refine ⟨h2, List.nodup_singleton _, ?_⟩
          intro a ha hb
          rw [List.mem_singleton] at hb
          subst hb
          rcases List.mem_map.mp ha with ⟨t, ht, he⟩
          exact hnotin (he ▸ h1 t ht)
      | raiseIntegrity =>
        have hst : importStep true st r = { st with errors := st.errors + 1 } := by
          unfold importStep; rw [if_neg hc, hr2]
        rw [hst]
        exact ih _ (fun r' hr' => hne r' (List.mem_cons_of_mem r hr')) h1 h2
      | raiseOther =>
        have hst : importStep true st r = { st with errors := st.errors + 1 } := by
          unfold importStep; rw [if_neg hc, hr2]
        rw [hst]
        exact ih _ (fun r' hr' => hne r' (List.mem_cons_of_mem r hr')) h1 h2

/-- Rows hashed into a distinguished subset `E0` of the initial working
set are never persisted, and `E0` stays in the working set. -/
theorem importFold_fresh_inv (E0 : List String) (rs : List (ParsedRow × RowOutcome)) :
    ∀ st : ImportState,
      (∀ h ∈ E0, h ∈ st.existing) →
      (∀ t ∈ st.persisted, t.import_hash ∉ E0) →
      (∀ t ∈ (rs.foldl (importStep true) st).persisted, t.import_hash ∉ E0) := by
  induction rs with
  | nil => intro st _ h2; exact h2
  | cons r rs ih =>
    intro st h1 h2
    rw [List.foldl_cons]
    refine ih _ (fun h hm => importStep_existing_mono true st r h (h1 h hm)) ?_
    intro t ht
    unfold importStep at ht
    by_cases hc : (true = true) ∧ r.1.import_hash ∈ st.existing
    · rw [if_pos hc] at ht; exact h2 t ht
    · rw [if_neg hc] at ht
      have hnotin : r.1.import_hash ∉ st.existing := fun hm => hc ⟨rfl, hm⟩
      cases hr2 : r.2 <;> rw [hr2] at ht <;> simp only [] at ht
      · rcases List.mem_append.mp ht with h' | h'
        · exact h2 t h'
        · rw [List.mem_singleton.mp h']
          exact fun hmem => hnotin (h1 _ hmem)
      · exact h2 t ht
      · exact h2 t ht

/-- Every row whose hash lies in a subset `E0` of the working set is
counted as skipped. -/
theorem importFold_db_skip (E0 : List String) (rs : List (ParsedRow × RowOutcome)) :
    ∀ st : ImportState, (∀ h ∈ E0, h ∈ st.existing) →
      st.skipped + rs.countP (fun r => decide (r.1.import_hash ∈ E0))
        ≤ (rs.foldl (importStep true) st).skipped := by
  induction rs with
  | nil => intro st _; simp
  | cons r rs ih =>
    intro st h1
    rw [List.foldl_cons, List.countP_cons]
    by_cases hin : r.1.import_hash ∈ E0
    · have hst : importStep true st r = { st with skipped := st.skipped + 1 } := by
        unfold importStep; rw [if_pos ⟨rfl, h1 _ hin⟩]
      have := ih (importStep true st r)
        (fun h hm => importStep_existing_mono true st r h (h1 h hm))
      rw [hst] at this ⊢
      simp only [hin, decide_True, if_true]
      dsimp only at this
      omega
    · have := ih (importStep true st r)
        (fun h hm => importStep_existing_mono true st r h (h1 h hm))
      have hmono := importStep_skipped_mono true st r
      simp only [hin, decide_False, Bool.false_eq_true, if_false]
      omega

/-- In an error-free run, every input row's hash ends up covered: either
it was already in `db0` (a superset view of the initial working set) or a
row with that hash was persisted. -/
theorem importFold_cover (sd : Bool) (db0 : List String)
    (rs : List (ParsedRow × RowOutcome)) :
    ∀ st : ImportState,
      (∀ r ∈ rs, r.2 = RowOutcome.ok) →
      (∀ h ∈ st.existing, h ∈ db0 ∨ ∃ t ∈ st.persisted, t.import_hash = h) →
      ∀ r ∈ rs, r.1.import_hash ∈ db0 ∨
        ∃ t ∈ (rs.foldl (importStep sd) st).persisted, t.import_hash = r.1.import_hash := by
  induction rs with
  | nil => intro st _ _ r hr; exact absurd hr (List.not_mem_nil r)
  | cons x rs ih =>
    intro st hok hinv r hr
    rw [List.foldl_cons]
    have hokx : x.2 = RowOutcome.ok := hok x (List.mem_cons_self x rs)
    rcases List.mem_cons.mp hr with he | hmem
    · subst he
      by_cases hc : sd = true ∧ r.1.import_hash ∈ st.existing
      · have hst : importStep sd st r = { st with skipped := st.skipped + 1 } := by
          unfold importStep; rw [if_pos hc]
        rcases hinv _ hc.2 with h | ⟨t, ht, hth⟩
        · exact Or.inl h
        · refine Or.inr ⟨t, ?_, hth⟩
          refine importFold_persisted_mono sd rs _ t ?_
          rw [hst]
          exact ht
      · have hst : (importStep sd st r).persisted = st.persisted ++ [r.1] := by
          unfold importStep
          rw [if_neg hc, hokx]
        refine Or.inr ⟨r.1, ?_, rfl⟩
        refine importFold_persisted_mono sd rs _ r.1 ?_
        rw [hst]
        exact List.mem_append_right _ (List.mem_singleton_self _)
    · refine ih (importStep sd st x) (fun r' hr' => hok r' (List.mem_cons_of_mem x hr')) ?_ r hmem
      intro h hm
      unfold importStep at hm
      by_cases hc : sd = true ∧ x.1.import_hash ∈ st.existing
      · rw [if_pos hc] at hm
        rcases hinv h hm with h' | ⟨t, ht, hth⟩
        · exact Or.inl h'
        · exact Or.inr ⟨t, importStep_persisted_mono sd st x t ht, hth⟩
      · rw [if_neg hc, hokx] at hm
        by_cases hne : x.1.import_hash ≠ ""
        · rw [if_pos hne] at hm
          rcases List.mem_append.mp hm with h' | h'
          · rcases hinv h h' with h'' | ⟨t, ht, hth⟩
            · exact Or.inl h''
            · exact Or.inr ⟨t, importStep_persisted_mono sd st x t ht, hth⟩
          · refine Or.inr ⟨x.1, ?_, (List.mem_singleton.mp h').symm⟩
            have : (importStep sd st x).persisted = st.persisted ++ [x.1] := by
              unfold importStep
              rw [if_neg hc, hokx]
            rw [this]
            exact List.mem_append_right _ (List.mem_singleton_self _)
        · rw [if_neg hne] at hm
          rcases hinv h hm with h'' | ⟨t, ht, hth⟩
          · exact Or.inl h''
          · exact Or.inr ⟨t, importStep_persisted_mono sd st x t ht, hth⟩

/-! ## Claim theorems: import orchestrator -/

/-- C1: for every list of parsed rows and every value of `skipDuplicates`
(and any behaviour of the storage layer), `import_from_file`'s statistics
satisfy `total_rows = len(parsed_transactions)` and
`total_rows = imported + skipped + errors`; moreover each loop iteration
increments exactly one of the three counters by exactly one. -/
theorem c1_import_statistics (skipDuplicates : Bool) (dbHashes : List String)
    (rows : List (ParsedRow × RowOutcome)) :
    (runImport skipDuplicates dbHashes rows).stats.total_rows = rows.length ∧
    (runImport skipDuplicates dbHashes rows).stats.total_rows =
      (runImport skipDuplicates dbHashes rows).stats.imported +
      (runImport skipDuplicates dbHashes rows).stats.skipped +
      (runImport skipDuplicates dbHashes rows).stats.errors ∧
    (∀ (st : ImportState) (r : ParsedRow × RowOutcome),
      (importStep skipDuplicates st r).imported + (importStep skipDuplicates st r).skipped +
        (importStep skipDuplicates st r).errors = st.imported + st.skipped + st.errors + 1) := by
  refine ⟨rfl, ?_, importStep_count skipDuplicates⟩
  unfold runImport
  dsimp only
  rw [importFold_counts]
  dsimp only
  omega

/-- C2: with `skipDuplicates=true` (and the parser's nonempty hashes), a
row whose hash is already persisted for the user is counted as skipped —
at least as many rows are skipped as carry a persisted hash — no
persisted-in-this-run transaction carries a hash already in the store,
and the rows persisted in the run have pairwise distinct hashes: at most
one transaction per `(user, import_hash)` pair, even for duplicate rows
inside one file. -/
theorem c2_at_most_one_per_hash (dbHashes : List String)
    (rows : List (ParsedRow × RowOutcome))
    (hne : ∀ r ∈ rows, r.1.import_hash ≠ "") :
    (((runImport true dbHashes rows).persisted.map ParsedRow.import_hash).Nodup) ∧
    (∀ t ∈ (runImport true dbHashes rows).persisted, t.import_hash ∉ dbHashes) ∧
    rows.countP (fun r => decide (r.1.import_hash ∈ dbHashes))
      ≤ (runImport true dbHashes rows).stats.skipped := by
  unfold runImport
  dsimp only
  cases rows with
  | nil => simp
  | cons r0 rs0 =>
    set rows := r0 :: rs0 with hrows
    have hguard : (true = true ∧ rows ≠ []) := ⟨rfl, by simp [hrows]⟩
    rw [if_pos hguard]
    set E0 := dbHashes.filter (fun h => h ∈ rows.map (fun r => r.1.import_hash)) with hE0
    set st0 : ImportState := ⟨E0, 0, 0, 0, []⟩ with hst0
    have hE0sub : ∀ h ∈ E0, h ∈ st0.existing := fun h hm => hm
    refine ⟨?_, ?_, ?_⟩
    · exact (importFold_dedup_inv rows st0 hne (by intro t ht; simp [hst0] at ht)
        (by simp [hst0])).2
    · intro t ht
      have hsrc := importFold_persisted_src true rows st0 t ht
      have hfresh := importFold_fresh_inv E0 rows st0 hE0sub
        (by intro t' ht'; simp [hst0] at ht') t ht
      intro hdb
      rcases hsrc with h | h
      · simp [hst0] at h
      · refine hfresh ?_
        rw [hE0]
        refine List.mem_filter.mpr ⟨hdb, ?_⟩
        simp only [decide_eq_true_eq]
        rcases List.mem_map.mp h with ⟨r', hr', he⟩
        exact List.mem_map.mpr ⟨r', hr', by rw [he]⟩
    · have hcong : rows.countP (fun r => decide (r.1.import_hash ∈ dbHashes))
          = rows.countP (fun r => decide (r.1.import_hash ∈ E0)) := by
        refine List.countP_congr ?_
        intro r hr
        simp only [decide_eq_true_eq, hE0]
        constructor
        · intro hdb
          refine List.mem_filter.mpr ⟨hdb, ?_⟩
          simp only [decide_eq_true_eq]
          exact List.mem_map.mpr ⟨r, hr, rfl⟩
        · intro hf
          exact (List.mem_filter.mp hf).1
      rw [hcong]
      have := importFold_db_skip E0 rows st0 hE0sub
      simpa [hst0] using this

/-- C3 (code evaluation): a row that is not a known duplicate but whose
persistence raises a storage-layer uniqueness violation is counted in
`errors`, not `skipped` — `except Exception` (service.py lines 285-288)
does not special-case integrity errors, and a violation surfacing at the
final `commit()` (line 291) is outside the handler altogether. -/
theorem c3_uniqueness_violation_counted_as_error :
    (runImport true []
      [(⟨⟨2024, 1, 15⟩, ⟨true, 4567, -2⟩, "REWE", "X", "h1", []⟩,
        RowOutcome.raiseIntegrity)]).stats = ⟨1, 0, 0, 1⟩ ∧
    (runImport true []
      [(⟨⟨2024, 1, 15⟩, ⟨true, 4567, -2⟩, "REWE", "X", "h1", []⟩,
        RowOutcome.raiseIntegrity)]).persisted = [] := by
  constructor <;> rfl

/-- C4: importing the same parsed rows a second time for the same user
with `skipDuplicates=true` (the first run's flag and the second run's
storage behaviour being arbitrary), provided the first run raised no
row-level errors, yields `imported = 0`, `errors = 0` and
`skipped = total_rows` of the first run. -/
theorem c4_reimport_idempotent (sd1 : Bool) (db0 : List String)
    (rows rows2 : List (ParsedRow × RowOutcome))
    (hok : ∀ r ∈ rows, r.2 = RowOutcome.ok)
    (hsame : rows2.map Prod.fst = rows.map Prod.fst) :
    (runImport true (db0 ++ (runImport sd1 db0 rows).persisted.map ParsedRow.import_hash)
      rows2).stats.imported = 0 ∧
    (runImport true (db0 ++ (runImport sd1 db0 rows).persisted.map ParsedRow.import_hash)
      rows2).stats.skipped = (runImport sd1 db0 rows).stats.total_rows ∧
    (runImport true (db0 ++ (runImport sd1 db0 rows).persisted.map ParsedRow.import_hash)
      rows2).stats.errors = 0 := by
  have hlen : rows2.length = rows.length := by
    have := congrArg List.length hsame
    simpa using this
  cases rows2 with
  | nil =>
    have h0 : rows.length = 0 := by simpa using hlen.symm
    constructor
    · rfl
    constructor
    · show 0 = (runImport sd1 db0 rows).stats.total_rows
      show 0 = rows.length
      omega
    · rfl
  | cons r0 rs0 =>
    set db1 := db0 ++ (runImport sd1 db0 rows).persisted.map ParsedRow.import_hash with hdb1
    set rows2' := r0 :: rs0 with hrows2
    -- every hash of the second batch is in the initial working set
    have hcover : ∀ r ∈ rows2', r.1.import_hash ∈
        db1.filter (fun h => h ∈ rows2'.map (fun r => r.1.import_hash)) := by
      intro r hr
      refine List.mem_filter.mpr ⟨?_, ?_⟩
      · -- r.1 also occurs in the first batch
        have hr1 : r.1 ∈ rows.map Prod.fst := by
          rw [← hsame]
          exact List.mem_map.mpr ⟨r, hr, rfl⟩
        rcases List.mem_map.mp hr1 with ⟨r', hr', he⟩
        have := importFold_cover sd1 db0 rows
          ⟨if sd1 = true ∧ rows ≠ [] then
            db0.filter (fun h => h ∈ rows.map (fun r => r.1.import_hash)) else [],
            0, 0, 0, []⟩
          hok
          (by
            intro h hm
            dsimp only at hm
            by_cases hg : sd1 = true ∧ rows ≠ []
            · rw [if_pos hg] at hm
              exact Or.inl (List.mem_filter.mp hm).1
            · rw [if_neg hg] at hm
              exact absurd hm (List.not_mem_nil h))
          r' hr'
        rw [hdb1]
        unfold runImport
        dsimp only
        rcases this with h | h
        · exact List.mem_append_left _ (he ▸ h)
        · rcases h with ⟨t, ht, hth⟩
          exact List.mem_append_right _ (List.mem_map.mpr ⟨t, ht, by rw [hth, he]⟩)
      · simp only [decide_eq_true_eq]
        exact List.mem_map.mpr ⟨r, hr, rfl⟩
    have hall := importFold_skip_all rows2'
      ⟨db1.filter (fun h => h ∈ rows2'.map (fun r => r.1.import_hash)), 0, 0, 0, []⟩
      (fun r hr => hcover r hr)
    have hguard : (true = true ∧ rows2' ≠ []) := ⟨rfl, by simp [hrows2]⟩
    constructor
    · show (runImport true db1 rows2').stats.imported = 0
      unfold runImport
      dsimp only
      rw [if_pos hguard]
      exact hall.1
    constructor
    · show (runImport true db1 rows2').stats.skipped = _
      unfold runImport
      dsimp only
      rw [if_pos hguard]
      rw [hall.2.2.1]
      show 0 + rows2'.length = rows.length
      omega
    · show (runImport true db1 rows2').stats.errors = 0
      unfold runImport
      dsimp only
      rw [if_pos hguard]
      exact hall.2.1

/-- Witness for C2: a batch with an internal duplicate (`h1` twice) and a
row whose hash `h2` is already stored. -/
theorem c2_witness :
    (((runImport true ["h2"]
      [(⟨⟨2024, 1, 15⟩, ⟨true, 4567, -2⟩, "REWE", "A", "h1", []⟩, RowOutcome.ok),
       (⟨⟨2024, 1, 15⟩, ⟨true, 4567, -2⟩, "REWE", "A", "h1", []⟩, RowOutcome.ok),
       (⟨⟨2024, 1, 16⟩, ⟨false, 5, 0⟩, "X", "B", "h2", []⟩, RowOutcome.ok)]).persisted.map
        ParsedRow.import_hash).Nodup) ∧
    (∀ t ∈ (runImport true ["h2"]
      [(⟨⟨2024, 1, 15⟩, ⟨true, 4567, -2⟩, "REWE", "A", "h1", []⟩, RowOutcome.ok),
       (⟨⟨2024, 1, 15⟩, ⟨true, 4567, -2⟩, "REWE", "A", "h1", []⟩, RowOutcome.ok),
       (⟨⟨2024, 1, 16⟩, ⟨false, 5, 0⟩, "X", "B", "h2", []⟩, RowOutcome.ok)]).persisted,
      t.import_hash ∉ ["h2"]) ∧
    List.countP (fun (r : ParsedRow × RowOutcome) => decide (r.1.import_hash ∈ ["h2"]))
      [(⟨⟨2024, 1, 15⟩, ⟨true, 4567, -2⟩, "REWE", "A", "h1", []⟩, RowOutcome.ok),
       (⟨⟨2024, 1, 15⟩, ⟨true, 4567, -2⟩, "REWE", "A", "h1", []⟩, RowOutcome.ok),
       (⟨⟨2024, 1, 16⟩, ⟨false, 5, 0⟩, "X", "B", "h2", []⟩, RowOutcome.ok)]
      ≤ (runImport true ["h2"]
      [(⟨⟨2024, 1, 15⟩, ⟨true, 4567, -2⟩, "REWE", "A", "h1", []⟩, RowOutcome.ok),
       (⟨⟨2024, 1, 15⟩, ⟨true, 4567, -2⟩, "REWE", "A", "h1", []⟩, RowOutcome.ok),
       (⟨⟨2024, 1, 16⟩, ⟨false, 5, 0⟩, "X", "B", "h2", []⟩, RowOutcome.ok)]).stats.skipped :=
  c2_at_most_one_per_hash ["h2"]
    [(⟨⟨2024, 1, 15⟩, ⟨true, 4567, -2⟩, "REWE", "A", "h1", []⟩, RowOutcome.ok),
     (⟨⟨2024, 1, 15⟩, ⟨true, 4567, -2⟩, "REWE", "A", "h1", []⟩, RowOutcome.ok),
     (⟨⟨2024, 1, 16⟩, ⟨false, 5, 0⟩, "X", "B", "h2", []⟩, RowOutcome.ok)]
    (by decide)

/-- Witness for C4: one row imported error-free, then the same row list
re-imported with `skipDuplicates=true`. -/
theorem c4_witness :
    (runImport true
      ([] ++ (runImport false [] [(⟨⟨2024, 1, 15⟩, ⟨true, 4567, -2⟩, "REWE", "A", "h1", []⟩,
        RowOutcome.ok)]).persisted.map ParsedRow.import_hash)
      [(⟨⟨2024, 1, 15⟩, ⟨true, 4567, -2⟩, "REWE", "A", "h1", []⟩,
        RowOutcome.raiseOther)]).stats.imported = 0 ∧
    (runImport true
      ([] ++ (runImport false [] [(⟨⟨2024, 1, 15⟩, ⟨true, 4567, -2⟩, "REWE", "A", "h1", []⟩,
        RowOutcome.ok)]).persisted.map ParsedRow.import_hash)
      [(⟨⟨2024, 1, 15⟩, ⟨true, 4567, -2⟩, "REWE", "A", "h1", []⟩,
        RowOutcome.raiseOther)]).stats.skipped =
      (runImport false [] [(⟨⟨2024, 1, 15⟩, ⟨true, 4567, -2⟩, "REWE", "A", "h1", []⟩,
        RowOutcome.ok)]).stats.total_rows ∧
    (runImport true
      ([] ++ (runImport false [] [(⟨⟨2024, 1, 15⟩, ⟨true, 4567, -2⟩, "REWE", "A", "h1", []⟩,
        RowOutcome.ok)]).persisted.map ParsedRow.import_hash)
      [(⟨⟨2024, 1, 15⟩, ⟨true, 4567, -2⟩, "REWE", "A", "h1", []⟩,
        RowOutcome.raiseOther)]).stats.errors = 0 :=
  c4_reimport_idempotent false []
    [(⟨⟨2024, 1, 15⟩, ⟨true, 4567, -2⟩, "REWE", "A", "h1", []⟩, RowOutcome.ok)]
    [(⟨⟨2024, 1, 15⟩, ⟨true, 4567, -2⟩, "REWE", "A", "h1", []⟩, RowOutcome.raiseOther)]
    (by decide) (by rfl)

/-! ## Lemmas about Python primitives -/

theorem digitChar_not_space (a : Nat) (h : a ≤ 9) : isPySpace (digitChar a) = false := by
  interval_cases a <;> decide

theorem digitChar_isDigit (a : Nat) (h : a ≤ 9) : (digitChar a).isDigit = true := by
  interval_cases a <;> decide

theorem digitChar_ne_dot (a : Nat) (h : a ≤ 9) : digitChar a ≠ '.' := by
  interval_cases a <;> decide

theorem digitChar_ne_plus (a : Nat) (h : a ≤ 9) : digitChar a ≠ '+' := by
  interval_cases a <;> decide

theorem digitChar_ne_minus (a : Nat) (h : a ≤ 9) : digitChar a ≠ '-' := by
  interval_cases a <;> decide

theorem digitVal_digitChar (a : Nat) (h : a ≤ 9) : digitVal (digitChar a) = a := by
  interval_cases a <;> decide

/-- `strip` is the identity on whitespace-free text. -/
theorem pyStripList_id {l : List Char} (h : ∀ c ∈ l, isPySpace c = false) :
    pyStripList l = l := by
  unfold pyStripList
  have h1 : l.dropWhile isPySpace = l := by
    cases l with
    | nil => rfl
    | cons x xs =>
      rw [List.dropWhile_cons_of_neg]
      simp [h x (List.mem_cons_self x xs)]
  rw [h1]
  cases hr : l.reverse with
  | nil =>
    have : l = [] := by simpa using congrArg List.reverse hr
    simp [this]
  | cons y ys =>
    have hy : y ∈ l := by
      rw [← List.mem_reverse, hr]
      exact List.mem_cons_self y ys
    rw [List.dropWhile_cons_of_neg (by simp [h y hy])]
    rw [← hr, List.reverse_reverse]

/-- `strip` of an all-whitespace text is empty. -/
theorem pyStripList_all_space {l : List Char} (h : ∀ c ∈ l, isPySpace c = true) :
    pyStripList l = [] := by
  unfold pyStripList
  have h1 : l.dropWhile isPySpace = [] := List.dropWhile_eq_nil_iff.mpr h
  rw [h1]
  rfl

/-- `split(".")` on a `DD.MM.YYYY`-shaped character list. -/
theorem splitOn_dot_pattern (d1 d2 m1 m2 y1 y2 y3 y4 : Char)
    (h : ∀ c ∈ [d1, d2, m1, m2, y1, y2, y3, y4], c ≠ '.') :
    [d1, d2, '.', m1, m2, '.', y1, y2, y3, y4].splitOn '.' =
      [[d1, d2], [m1, m2], [y1, y2, y3, y4]] := by
  have h1 := h d1 (by simp)
  have h2 := h d2 (by simp)
  have h3 := h m1 (by simp)
  have h4 := h m2 (by simp)
  have h5 := h y1 (by simp)
  have h6 := h y2 (by simp)
  have h7 := h y3 (by simp)
  have h8 := h y4 (by simp)
  simp [List.splitOn, List.splitOnP_cons, List.splitOnP_nil, h1, h2, h3, h4, h5, h6, h7, h8]

/-- `int()` of two digit characters. -/
theorem pyIntL_two (a b : Nat) (ha : a ≤ 9) (hb : b ≤ 9) :
    pyIntL [digitChar a, digitChar b] = some ((10 * a + b : Nat) : Int) := by
  unfold pyIntL
  rw [pyStripList_id (by
    intro c hc
    rcases List.mem_cons.mp hc with h | h
    · rw [h]; exact digitChar_not_space a ha
    · rw [List.mem_singleton.mp h]; exact digitChar_not_space b hb)]
  dsimp only
  rw [if_neg (digitChar_ne_plus a ha), if_neg (digitChar_ne_minus a ha)]
  unfold pyDigits
  dsimp only
  rw [if_pos (digitChar_isDigit a ha)]
  unfold pyDigitsAux
  try dsimp only
  rw [if_pos (digitChar_isDigit a ha)]
  unfold pyDigitsAux
  try dsimp only
  rw [if_pos (digitChar_isDigit b hb)]
  rw [digitVal_digitChar a ha, digitVal_digitChar b hb]
  simp

/-- `int()` of four digit characters. -/
theorem pyIntL_four (a b c d : Nat) (ha : a ≤ 9) (hb : b ≤ 9) (hc : c ≤ 9) (hd : d ≤ 9) :
    pyIntL [digitChar a, digitChar b, digitChar c, digitChar d]
      = some ((1000 * a + 100 * b + 10 * c + d : Nat) : Int) := by
  unfold pyIntL
  rw [pyStripList_id (by
    intro ch hch
    simp only [List.mem_cons, List.not_mem_nil, or_false] at hch
    rcases hch with h | h | h | h
    · rw [h]; exact digitChar_not_space a ha
    · rw [h]; exact digitChar_not_space b hb
    · rw [h]; exact digitChar_not_space c hc
    · rw [h]; exact digitChar_not_space d hd)]
  dsimp only
  rw [if_neg (digitChar_ne_plus a ha), if_neg (digitChar_ne_minus a ha)]
  unfold pyDigits
  dsimp only
  rw [if_pos (digitChar_isDigit a ha)]
  unfold pyDigitsAux
  try dsimp only
  rw [if_pos (digitChar_isDigit a ha)]
  unfold pyDigitsAux
  try dsimp only
  rw [if_pos (digitChar_isDigit b hb)]
  unfold pyDigitsAux
  try dsimp only
  rw [if_pos (digitChar_isDigit c hc)]
  unfold pyDigitsAux
  try dsimp only
  rw [if_pos (digitChar_isDigit d hd)]
  rw [digitVal_digitChar a ha, digitVal_digitChar b hb,
    digitVal_digitChar c hc, digitVal_digitChar d hd]
  have : 10 * (10 * (10 * (10 * 0 + a) + b) + c) + d = 1000 * a + 100 * b + 10 * c + d := by
    ring
  rw [this]
  rfl

/-! ## Claim theorems: file parser and locale parsers -/

/-- C5: a row whose date or amount fails to parse is skipped entirely —
the row loop still returns every other row's normalisation, in source
order, with the failed row absent and no error recorded in the returned
list. -/
theorem c5_row_failure_isolated (xs ys : List RawRow) (r : RawRow)
    (hfail : parse_german_date r.buchungstag = none ∨ parse_german_amount r.betrag = none) :
    parseRow r = none ∧
    parse_finanzguru_rows (xs ++ r :: ys) =
      parse_finanzguru_rows xs ++ parse_finanzguru_rows ys := by
  have hnone : parseRow r = none := by
    unfold parseRow
    rcases hfail with h | h
    · rw [h]
    · rw [h]
      cases parse_german_date r.buchungstag <;> rfl
  refine ⟨hnone, ?_⟩
  unfold parse_finanzguru_rows
  rw [List.filterMap_append, List.filterMap_cons, hnone]

/-- Witness for C5: the spec's end-to-end scenario — a 5-row file whose
third row has a malformed date parses to exactly the other 4 rows. -/
theorem c5_witness :
    parseRow ⟨some "invalid", some "-3,00", some "C", some "z", []⟩ = none ∧
    parse_finanzguru_rows
      ([⟨some "15.01.2024", some "-45,67", some "REWE Markt GmbH", some "REWE SAGT DANKE", []⟩,
        ⟨some "14.01.2024", some "-12,99", some "Netflix", some "Abo", []⟩] ++
        ⟨some "invalid", some "-3,00", some "C", some "z", []⟩ ::
        [⟨some "12.01.2024", some "2.500,00", some "Arbeitgeber GmbH", some "Gehalt", []⟩,
         ⟨some "10.01.2024", some "-9,99", some "Spotify", some "Premium", []⟩]) =
      parse_finanzguru_rows
        [⟨some "15.01.2024", some "-45,67", some "REWE Markt GmbH", some "REWE SAGT DANKE", []⟩,
         ⟨some "14.01.2024", some "-12,99", some "Netflix", some "Abo", []⟩] ++
      parse_finanzguru_rows
        [⟨some "12.01.2024", some "2.500,00", some "Arbeitgeber GmbH", some "Gehalt", []⟩,
         ⟨some "10.01.2024", some "-9,99", some "Spotify", some "Premium", []⟩] :=
  c5_row_failure_isolated
    [⟨some "15.01.2024", some "-45,67", some "REWE Markt GmbH", some "REWE SAGT DANKE", []⟩,
     ⟨some "14.01.2024", some "-12,99", some "Netflix", some "Abo", []⟩]
    [⟨some "12.01.2024", some "2.500,00", some "Arbeitgeber GmbH", some "Gehalt", []⟩,
     ⟨some "10.01.2024", some "-9,99", some "Spotify", some "Premium", []⟩]
    ⟨some "invalid", some "-3,00", some "C", some "z", []⟩
    (Or.inl (by decide))

/-- C6 counterexample: `parse_german_date` succeeds on `"5.1.2024"`, a
string that does NOT match the `DD.MM.YYYY` pattern, refuting "succeeds
exactly on strings matching the DD.MM.YYYY pattern". -/
theorem c6_counterexample :
    parse_german_date (some "5.1.2024") = some ⟨2024, 1, 5⟩ ∧
    matchesDDMMYYYY "5.1.2024" = false ∧
    matchesDDMMYYYY "05.01.2024" = true := by
  decide

/-- C6 amended: on every `DD.MM.YYYY`-shaped string the parser returns
exactly what the `date` constructor makes of the denoted numbers —
the correct calendar date for valid ones (leap days included),
failure for structurally invalid ones (e.g. day 32) — and it fails on
empty, missing and all-whitespace input; but the accepted language is
larger than `DD.MM.YYYY` (see the counterexample). -/
theorem c6_amended_parse_german_date (a b c d e f g h : Nat)
    (ha : a ≤ 9) (hb : b ≤ 9) (hc : c ≤ 9) (hd : d ≤ 9)
    (he : e ≤ 9) (hf : f ≤ 9) (hg : g ≤ 9) (hh : h ≤ 9) :
    parse_german_date (some ⟨[digitChar a, digitChar b, '.', digitChar c, digitChar d,
      '.', digitChar e, digitChar f, digitChar g, digitChar h]⟩)
      = mkPyDate ((1000 * e + 100 * f + 10 * g + h : Nat) : Int) ((10 * c + d : Nat) : Int)
        ((10 * a + b : Nat) : Int) ∧
    parse_german_date (some "") = none ∧
    parse_german_date none = none ∧
    (∀ s : String, (∀ ch ∈ s.data, isPySpace ch = true) → parse_german_date (some s) = none) := by
  refine ⟨?_, rfl, rfl, ?_⟩
  · unfold parse_german_date
    dsimp only
    rw [if_neg (by simp [String.ext_iff])]
    rw [pyStripList_id (by
      intro ch hch
      simp only [List.mem_cons, List.not_mem_nil, or_false] at hch
      rcases hch with h' | h' | h' | h' | h' | h' | h' | h' | h' | h' <;> rw [h']
      · exact digitChar_not_space a ha
      · exact digitChar_not_space b hb
      · rfl
      · exact digitChar_not_space c hc
      · exact digitChar_not_space d hd
      · rfl
      · exact digitChar_not_space e he
      · exact digitChar_not_space f hf
      · exact digitChar_not_space g hg
      · exact digitChar_not_space h hh)]
    rw [splitOn_dot_pattern _ _ _ _ _ _ _ _ (by
      intro ch hch
      simp only [List.mem_cons, List.not_mem_nil, or_false] at hch
      rcases hch with h' | h' | h' | h' | h' | h' | h' | h' <;> rw [h']
      · exact digitChar_ne_dot a ha
      · exact digitChar_ne_dot b hb
      · exact digitChar_ne_dot c hc
      · exact digitChar_ne_dot d hd
      · exact digitChar_ne_dot e he
      · exact digitChar_ne_dot f hf
      · exact digitChar_ne_dot g hg
      · exact digitChar_ne_dot h hh)]
    dsimp only
    rw [pyIntL_four e f g h he hf hg hh, pyIntL_two c d hc hd, pyIntL_two a b ha hb]
    rfl
  · intro s hs
    unfold parse_german_date
    dsimp only
    by_cases hempty : s = ""
    · rw [if_pos hempty]
    · rw [if_neg hempty]
      rw [pyStripList_all_space hs]
      rfl

/-- Witness for C6: the amended theorem at `29.02.2024` (valid leap date)
and `32.01.2024` (structurally invalid), with the whitespace clause at a
blank string. -/
theorem c6_witness :
    parse_german_date (some "29.02.2024") = mkPyDate 2024 2 29 ∧
    mkPyDate 2024 2 29 = some ⟨2024, 2, 29⟩ ∧
    parse_german_date (some "32.01.2024") = mkPyDate 2024 1 32 ∧
    mkPyDate 2024 1 32 = none ∧
    parse_german_date (some "  ") = none := by
  have h29 := (c6_amended_parse_german_date 2 9 0 2 2 0 2 4
    (by decide) (by decide) (by decide) (by decide)
    (by decide) (by decide) (by decide) (by decide)).1
  have h32 := (c6_amended_parse_german_date 3 2 0 1 2 0 2 4
    (by decide) (by decide) (by decide) (by decide)
    (by decide) (by decide) (by decide) (by decide)).1
  have hws := (c6_amended_parse_german_date 0 0 0 0 0 0 0 0
    (by decide) (by decide) (by decide) (by decide)
    (by decide) (by decide) (by decide) (by decide)).2.2.2 "  " (by decide)
  refine ⟨?_, by decide, ?_, by decide, hws⟩
  · have heq : ("29.02.2024" : String) = ⟨[digitChar 2, digitChar 9, '.', digitChar 0,
      digitChar 2, '.', digitChar 2, digitChar 0, digitChar 2, digitChar 4]⟩ := by decide
    rw [heq]
    convert h29 using 2
  · have heq : ("32.01.2024" : String) = ⟨[digitChar 3, digitChar 2, '.', digitChar 0,
      digitChar 1, '.', digitChar 2, digitChar 0, digitChar 2, digitChar 4]⟩ := by decide
    rw [heq]
    convert h32 using 2

/-! ## Lemmas about the digest's shape -/

theorem wordHex_length (w : Nat) : (wordHex w).length = 8 := rfl

theorem sha256Hex_length (s : String) : (sha256Hex s).length = 64 := by
  unfold sha256Hex
  show (String.mk _).length = 64
  simp only [String.length]
  simp [List.length_append, wordHex_length]

theorem sha256Hex_ne_empty (s : String) : sha256Hex s ≠ "" := by
  intro h
  have h64 := sha256Hex_length s
  rw [h] at h64
  simp [String.length] at h64

theorem hexc_mem_hexdigits (n : Nat) : hexc (n % 16) ∈ ("0123456789abcdef").data := by
  have hlt : n % 16 < 16 := Nat.mod_lt _ (by norm_num)
  set k := n % 16 with hk
  interval_cases k <;> decide

theorem mem_wordHex_hexdigit (w : Nat) (ch : Char) (h : ch ∈ wordHex w) :
    ch ∈ ("0123456789abcdef").data := by
  simp only [wordHex, List.mem_cons, List.not_mem_nil, or_false] at h
  rcases h with h | h | h | h | h | h | h | h <;>
    (subst h; exact hexc_mem_hexdigits _)

theorem sha256Hex_hexdigits (s : String) (ch : Char) (h : ch ∈ (sha256Hex s).data) :
    ch ∈ ("0123456789abcdef").data := by
  unfold sha256Hex at h
  simp only [List.mem_append] at h
  rcases h with ((((((h | h) | h) | h) | h) | h) | h) | h <;>
    exact mem_wordHex_hexdigit _ _ h

/-! ## Claim theorems: import hasher -/

/-- C7 counterexample: for an integral amount (`Decimal("5")`, as
`parse_german_amount("5")` produces) the hashed canonical string carries
`"5"`, not the claimed fixed-two-decimal `"5.00"`, and the hash differs
from the hash of the claimed canonical string. -/
theorem c7_counterexample :
    codeCanonicalString ⟨2024, 1, 1⟩ ⟨false, 5, 0⟩ "a" "b" = "2024-01-01|5|a|b" ∧
    specCanonicalString ⟨2024, 1, 1⟩ ⟨false, 5, 0⟩ "a" "b" = "2024-01-01|5.00|a|b" ∧
    generate_import_hash ⟨2024, 1, 1⟩ ⟨false, 5, 0⟩ "a" "b"
      ≠ sha256Hex (specCanonicalString ⟨2024, 1, 1⟩ ⟨false, 5, 0⟩ "a" "b") := by
  refine ⟨by decide, by decide, ?_⟩
  decide

/-- C7 amended: the hash is the SHA-256 hex digest of
`"{date}|{amount}|{counterparty}|{description}"` with the date in ISO form
and the amount in `str(Decimal)` scale-preserving form — which agrees with
the claimed fixed-two-decimal form exactly when the amount's exponent is
`-2` (as for every parsed amount written with a decimal comma and two
digits); the digest is always 64 characters, all lowercase hexadecimal.
Determinism over the input quadruple holds by construction: the embedding
is a pure function of `(date, amount, counterparty, description)`. -/
theorem c7_amended_import_hash (dt : PyDate) (amount : Dec) (cp ds : String) :
    (amount.exp = -2 →
      generate_import_hash dt amount cp ds
        = sha256Hex (specCanonicalString dt amount cp ds)) ∧
    (generate_import_hash dt amount cp ds).length = 64 ∧
    (∀ ch ∈ (generate_import_hash dt amount cp ds).data,
      ch ∈ ("0123456789abcdef").data) := by
  refine ⟨?_, sha256Hex_length _, fun ch h => sha256Hex_hexdigits _ ch h⟩
  intro hexp
  have hfix : specFixedTwo amount = decStr amount := by
    rcases amount with ⟨sg, mant, ex⟩
    simp only at hexp
    subst hexp
    unfold specFixedTwo toCents
    have h2 : (-2 : Int) = Int.negSucc 1 := rfl
    show decStr ⟨sg, (match (-2 : Int) with
      | Int.ofNat k => mant * 10 ^ k * 100
      | Int.negSucc k => mant * 100 / 10 ^ (k + 1)), -2⟩ = decStr ⟨sg, mant, -2⟩
    rw [h2]
    dsimp only
    have : mant * 100 / 10 ^ (1 + 1) = mant := by
      norm_num
    rw [this]
  unfold generate_import_hash specCanonicalString
  rw [hfix]

/-- Witness for C7: a two-decimal amount, for which the code's hash equals
the hash of the spec's canonical string. -/
theorem c7_witness :
    (Dec.exp ⟨true, 4567, -2⟩ = -2) ∧
    generate_import_hash ⟨2024, 1, 15⟩ ⟨true, 4567, -2⟩ "REWE" "X"
      = sha256Hex (specCanonicalString ⟨2024, 1, 15⟩ ⟨true, 4567, -2⟩ "REWE" "X") :=
  ⟨rfl, (c7_amended_import_hash ⟨2024, 1, 15⟩ ⟨true, 4567, -2⟩ "REWE" "X").1 rfl⟩

/-- C10: the row loop strips surrounding whitespace from the counterparty
and description cells before hashing, so two source rows with equal date
and amount cells whose text cells agree up to surrounding whitespace get
the same `import_hash`, and with `skipDuplicates=true` the second of them
is skipped: exactly one is persisted. -/
theorem c10_whitespace_trimmed_dedup (r1 r2 : RawRow) (t1 t2 : ParsedRow)
    (hdc : r1.buchungstag = r2.buchungstag)
    (hbc : r1.betrag = r2.betrag)
    (hcp : cellText r1.beguenstigter = cellText r2.beguenstigter)
    (hds : cellText r1.verwendungszweck = cellText r2.verwendungszweck)
    (h1 : parseRow r1 = some t1)
    (h2 : parseRow r2 = some t2) :
    t1.import_hash = t2.import_hash ∧
    (runImport true [] [(t1, RowOutcome.ok), (t2, RowOutcome.ok)]).stats.imported = 1 ∧
    (runImport true [] [(t1, RowOutcome.ok), (t2, RowOutcome.ok)]).stats.skipped = 1 ∧
    (runImport true [] [(t1, RowOutcome.ok), (t2, RowOutcome.ok)]).persisted = [t1] := by
  unfold parseRow at h1 h2
  rw [← hdc, ← hbc] at h2
  rcases hpd : parse_german_date r1.buchungstag with _ | d
  · rw [hpd] at h1
    exact absurd h1 (by simp)
  rcases hpa : parse_german_amount r1.betrag with _ | a
  · rw [hpd, hpa] at h1
    exact absurd h1 (by simp)
  rw [hpd, hpa] at h1 h2
  dsimp only at h1 h2
  have ht1 : t1 = ⟨d, a, cellText r1.beguenstigter, cellText r1.verwendungszweck,
      generate_import_hash d a (cellText r1.beguenstigter) (cellText r1.verwendungszweck),
      r1.extra⟩ := (Option.some.inj h1).symm
  have ht2 : t2 = ⟨d, a, cellText r2.beguenstigter, cellText r2.verwendungszweck,
      generate_import_hash d a (cellText r2.beguenstigter) (cellText r2.verwendungszweck),
      r2.extra⟩ := (Option.some.inj h2).symm
  have heq : t1.import_hash = t2.import_hash := by
    rw [ht1, ht2]
    dsimp only
    rw [hcp, hds]
  have hne : t1.import_hash ≠ "" := by
    rw [ht1]
    exact sha256Hex_ne_empty _
  have hs1 : importStep true ⟨[], 0, 0, 0, []⟩ (t1, RowOutcome.ok)
      = ⟨[t1.import_hash], 1, 0, 0, [t1]⟩ := by
    unfold importStep
    rw [if_neg (by simp)]
    dsimp only
    rw [if_pos hne]
    simp
  have hs2 : importStep true ⟨[t1.import_hash], 1, 0, 0, [t1]⟩ (t2, RowOutcome.ok)
      = ⟨[t1.import_hash], 1, 1, 0, [t1]⟩ := by
    unfold importStep
    rw [if_pos ⟨rfl, by rw [← heq]; exact List.mem_singleton_self _⟩]
  have hrun : (runImport true [] [(t1, RowOutcome.ok), (t2, RowOutcome.ok)])
      = ⟨⟨2, 1, 1, 0⟩, [t1]⟩ := by
    unfold runImport
    rw [if_pos ⟨rfl, by simp⟩]
    dsimp only
    rw [List.foldl_cons]
    rw [show (⟨List.filter (fun h => decide (h ∈ List.map (fun r => r.1.import_hash)
      [(t1, RowOutcome.ok), (t2, RowOutcome.ok)])) [], 0, 0, 0, []⟩ : ImportState)
      = ⟨[], 0, 0, 0, []⟩ from rfl]
    rw [hs1, List.foldl_cons, hs2]
    rfl
  rw [hrun]
  exact ⟨heq, rfl, rfl, rfl⟩

/-- Witness for C10: the same transaction once with clean cells and once
with surrounding whitespace in counterparty and description. -/
theorem c10_witness :
    (⟨⟨2024, 1, 15⟩, ⟨true, 4567, -2⟩, "REWE", "Einkauf",
      "fb4a890925ee133d5f2b81661aee43f386f6a7e34a9db6edeb8bca96b8bf39e0", []⟩ :
        ParsedRow).import_hash =
    (⟨⟨2024, 1, 15⟩, ⟨true, 4567, -2⟩, "REWE", "Einkauf",
      "fb4a890925ee133d5f2b81661aee43f386f6a7e34a9db6edeb8bca96b8bf39e0", []⟩ :
        ParsedRow).import_hash ∧
    (runImport true []
      [(⟨⟨2024, 1, 15⟩, ⟨true, 4567, -2⟩, "REWE", "Einkauf",
        "fb4a890925ee133d5f2b81661aee43f386f6a7e34a9db6edeb8bca96b8bf39e0", []⟩,
        RowOutcome.ok),
       (⟨⟨2024, 1, 15⟩, ⟨true, 4567, -2⟩, "REWE", "Einkauf",
        "fb4a890925ee133d5f2b81661aee43f386f6a7e34a9db6edeb8bca96b8bf39e0", []⟩,
        RowOutcome.ok)]).stats.imported = 1 ∧
    (runImport true []
      [(⟨⟨2024, 1, 15⟩, ⟨true, 4567, -2⟩, "REWE", "Einkauf",
        "fb4a890925ee133d5f2b81661aee43f386f6a7e34a9db6edeb8bca96b8bf39e0", []⟩,
        RowOutcome.ok),
       (⟨⟨2024, 1, 15⟩, ⟨true, 4567, -2⟩, "REWE", "Einkauf",
        "fb4a890925ee133d5f2b81661aee43f386f6a7e34a9db6edeb8bca96b8bf39e0", []⟩,
        RowOutcome.ok)]).stats.skipped = 1 ∧
    (runImport true []
      [(⟨⟨2024, 1, 15⟩, ⟨true, 4567, -2⟩, "REWE", "Einkauf",
        "fb4a890925ee133d5f2b81661aee43f386f6a7e34a9db6edeb8bca96b8bf39e0", []⟩,
        RowOutcome.ok),
       (⟨⟨2024, 1, 15⟩, ⟨true, 4567, -2⟩, "REWE", "Einkauf",
        "fb4a890925ee133d5f2b81661aee43f386f6a7e34a9db6edeb8bca96b8bf39e0", []⟩,
        RowOutcome.ok)]).persisted =
      [⟨⟨2024, 1, 15⟩, ⟨true, 4567, -2⟩, "REWE", "Einkauf",
        "fb4a890925ee133d5f2b81661aee43f386f6a7e34a9db6edeb8bca96b8bf39e0", []⟩] :=
  c10_whitespace_trimmed_dedup
    ⟨some "15.01.2024", some "-45,67", some "REWE", some "Einkauf", []⟩
    ⟨some "15.01.2024", some "-45,67", some "  REWE  ", some "Einkauf\t", []⟩
    ⟨⟨2024, 1, 15⟩, ⟨true, 4567, -2⟩, "REWE", "Einkauf",
      "fb4a890925ee133d5f2b81661aee43f386f6a7e34a9db6edeb8bca96b8bf39e0", []⟩
    ⟨⟨2024, 1, 15⟩, ⟨true, 4567, -2⟩, "REWE", "Einkauf",
      "fb4a890925ee133d5f2b81661aee43f386f6a7e34a9db6edeb8bca96b8bf39e0", []⟩
    rfl rfl (by decide) (by decide) (by decide) (by decide)

/-! ## Lemmas about the receipt matcher -/

theorem merchant_score_cases (m : String) (t : MTxn) :
    merchant_score m t = 0 ∨ merchant_score m t = 10 ∨ merchant_score m t = 20 := by
  unfold merchant_score
  rcases t.counterparty with _ | cp
  · exact Or.inl rfl
  · dsimp only
    split
    · split
      · exact Or.inr (Or.inr rfl)
      · split
        · exact Or.inr (Or.inl rfl)
        · exact Or.inl rfl
    · exact Or.inl rfl

theorem except_bind_ok_inv {ε α β : Type} {e : Except ε α} {f : α → Except ε β} {b : β}
    (h : (e >>= f) = .ok b) : ∃ a, e = .ok a ∧ f a = .ok b := by
  cases e with
  | error err => exact absurd h (by simp [Bind.bind, Except.bind])
  | ok a => exact ⟨a, rfl, by simpa [Bind.bind, Except.bind] using h⟩

theorem exceptMapM_mem {ε α β : Type} (f : α → Except ε β) (l : List α) :
    ∀ out : List β, l.mapM f = .ok out → ∀ b ∈ out, ∃ a ∈ l, f a = .ok b := by
  induction l with
  | nil =>
    intro out hml b hb
    rw [List.mapM_nil] at hml
    cases hml
    exact absurd hb (List.not_mem_nil b)
  | cons x xs ih =>
    intro out hml b hb
    rw [List.mapM_cons] at hml
    rcases except_bind_ok_inv hml with ⟨y, hy, hrest⟩
    rcases except_bind_ok_inv hrest with ⟨ys, hys, hpure⟩
    have hout : out = y :: ys := by
      cases hpure
      rfl
    subst hout
    rcases List.mem_cons.mp hb with he | hmem
    · exact ⟨x, List.mem_cons_self x xs, he ▸ hy⟩
    · rcases ih ys hys b hmem with ⟨a, ha, hfa⟩
      exact ⟨a, List.mem_cons_of_mem x ha, hfa⟩

theorem exceptMapM_ok_exists {ε α β : Type} (f : α → Except ε β) (l : List α)
    (h : ∀ a ∈ l, ∃ b, f a = .ok b) : ∃ out, l.mapM f = .ok out := by
  induction l with
  | nil => exact ⟨[], rfl⟩
  | cons x xs ih =>
    rcases h x (List.mem_cons_self x xs) with ⟨b, hb⟩
    rcases ih (fun a ha => h a (List.mem_cons_of_mem x ha)) with ⟨out, hout⟩
    refine ⟨b :: out, ?_⟩
    rw [List.mapM_cons, hb, hout]
    rfl

/-- Membership in a `find_matching_transactions` result determines the
score: every returned pair `(t, q)` has `q = ` the transaction's computed
score and `q ≥ 10`. -/
theorem find_matching_mem_inv (ed : ExtractedData) (merchant : String)
    (txns : List MTxn) (maxResults : Nat) (res : List (MTxn × ℚ))
    (hm : extractMerchant ed.merchant = .ok merchant)
    (hres : find_matching_transactions ed txns maxResults = .ok res) :
    ∀ t q, (t, q) ∈ res →
      scoreTxn merchant (extractDateStr ed.date) ed.total t = .ok q ∧ 10 ≤ q := by
  intro t q hmem
  unfold find_matching_transactions at hres
  rw [hm] at hres
  rw [show (Except.ok merchant >>= fun merchant =>
    (candidatePool (extractDateStr ed.date) txns).mapM (fun t => do
      let s ← scoreTxn merchant (extractDateStr ed.date) ed.total t
      Except.ok (t, s)) >>= fun scored =>
    Except.ok (((scored.filter (fun p => 10 ≤ p.2)).mergeSort
      (fun p q => q.2 ≤ p.2)).take maxResults) : Except PyErr (List (MTxn × ℚ)))
    = ((candidatePool (extractDateStr ed.date) txns).mapM (fun t => do
      let s ← scoreTxn merchant (extractDateStr ed.date) ed.total t
      Except.ok (t, s)) >>= fun scored =>
    Except.ok (((scored.filter (fun p => 10 ≤ p.2)).mergeSort
      (fun p q => q.2 ≤ p.2)).take maxResults)) from rfl] at hres
  rcases except_bind_ok_inv hres with ⟨scored, hsc, hok⟩
  have hres' : res = ((scored.filter (fun p => 10 ≤ p.2)).mergeSort
      (fun p q => q.2 ≤ p.2)).take maxResults := by
    cases hok
    rfl
  subst hres'
  have hkept : (t, q) ∈ scored.filter (fun p => 10 ≤ p.2) := by
    have h1 := List.mem_of_mem_take hmem
    exact (List.mem_mergeSort).mp h1
  have hq : 10 ≤ q := by
    have := (List.mem_filter.mp hkept).2
    simpa using this
  have hscored : (t, q) ∈ scored := (List.mem_filter.mp hkept).1
  rcases exceptMapM_mem _ _ scored hsc (t, q) hscored with ⟨a, _, hfa⟩
  rcases except_bind_ok_inv hfa with ⟨s, hs, hps⟩
  have hpair : (a, s) = (t, q) := by
    cases hps
    rfl
  injection hpair with h1 h2
  subst h1
  subst h2
  exact ⟨hs, hq⟩

theorem except_ok_bind {ε α β : Type} (a : α) (f : α → Except ε β) :
    (Except.ok a >>= f : Except ε β) = f a := rfl

/-! ## Claim theorems: receipt matcher -/

/-- C8 counterexample: a receipt with `total = 0` and a transaction with
identical date and identical absolute amount (both `0`) scores only 40 —
`receipt_total` is falsy, so the amount component is skipped — refuting
"identical date and amount scores at least 80". -/
theorem c8_counterexample :
    find_matching_transactions ⟨none, some (.jstr "2024-01-15"), some (.jnum 0)⟩
      [⟨⟨2024, 1, 15⟩, 0, none⟩] 10 = .ok [(⟨⟨2024, 1, 15⟩, 0, none⟩, 40)] ∧
    |(0 : ℚ)| = |((⟨⟨2024, 1, 15⟩, 0, none⟩ : MTxn)).amount| ∧ (40 : ℚ) < 80 := by
  refine ⟨?_, by norm_num, by norm_num⟩
  have hpool : candidatePool
      (extractDateStr (⟨none, some (.jstr "2024-01-15"), some (.jnum 0)⟩ :
        ExtractedData).date) [(⟨⟨2024, 1, 15⟩, 0, none⟩ : MTxn)]
      = [⟨⟨2024, 1, 15⟩, 0, none⟩] := rfl
  have hsc : scoreTxn ""
      (extractDateStr (⟨none, some (.jstr "2024-01-15"), some (.jnum 0)⟩ :
        ExtractedData).date)
      (⟨none, some (.jstr "2024-01-15"), some (.jnum 0)⟩ : ExtractedData).total
      ⟨⟨2024, 1, 15⟩, 0, none⟩ = .ok 40 := by
    have hd : dateScore (some "2024-01-15") (⟨⟨2024, 1, 15⟩, 0, none⟩ : MTxn) = 40 := by
      decide
    have ha : amount_score (some (.jnum 0)) (⟨⟨2024, 1, 15⟩, 0, none⟩ : MTxn) = .ok 0 := by
      unfold amount_score
      dsimp only
      rw [if_neg (by norm_num [jTruthy])]
    show scoreTxn "" (some "2024-01-15") (some (.jnum 0)) ⟨⟨2024, 1, 15⟩, 0, none⟩ = .ok 40
    unfold scoreTxn
    rw [ha, except_ok_bind, hd]
    rw [show merchant_score "" (⟨⟨2024, 1, 15⟩, 0, none⟩ : MTxn) = 0 from rfl]
    norm_num
  have hscored : ([(⟨⟨2024, 1, 15⟩, 0, none⟩ : MTxn)]).mapM (fun t => do
      let s ← scoreTxn ""
        (extractDateStr (⟨none, some (.jstr "2024-01-15"), some (.jnum 0)⟩ :
          ExtractedData).date)
        (⟨none, some (.jstr "2024-01-15"), some (.jnum 0)⟩ : ExtractedData).total t
      Except.ok (t, s)) = .ok [((⟨⟨2024, 1, 15⟩, 0, none⟩ : MTxn), (40 : ℚ))] := by
    rw [List.mapM_cons]
    have h1 : (do
        let s ← scoreTxn ""
          (extractDateStr (⟨none, some (.jstr "2024-01-15"), some (.jnum 0)⟩ :
            ExtractedData).date)
          (⟨none, some (.jstr "2024-01-15"), some (.jnum 0)⟩ : ExtractedData).total
          (⟨⟨2024, 1, 15⟩, 0, none⟩ : MTxn)
        Except.ok ((⟨⟨2024, 1, 15⟩, 0, none⟩ : MTxn), s) :
          Except PyErr (MTxn × ℚ)) = .ok (⟨⟨2024, 1, 15⟩, 0, none⟩, 40) := by
      show (scoreTxn ""
        (extractDateStr (⟨none, some (.jstr "2024-01-15"), some (.jnum 0)⟩ :
          ExtractedData).date)
        (⟨none, some (.jstr "2024-01-15"), some (.jnum 0)⟩ : ExtractedData).total
        (⟨⟨2024, 1, 15⟩, 0, none⟩ : MTxn) >>= fun s =>
          Except.ok ((⟨⟨2024, 1, 15⟩, 0, none⟩ : MTxn), s)) = _
      rw [hsc, except_ok_bind]
    rw [h1, except_ok_bind, List.mapM_nil]
    rfl
  unfold find_matching_transactions
  rw [show extractMerchant (⟨none, some (.jstr "2024-01-15"), some (.jnum 0)⟩ :
    ExtractedData).merchant = .ok "" from rfl, except_ok_bind]
  show ((candidatePool
      (extractDateStr (⟨none, some (.jstr "2024-01-15"), some (.jnum 0)⟩ :
        ExtractedData).date) [(⟨⟨2024, 1, 15⟩, 0, none⟩ : MTxn)]).mapM (fun t => do
        let s ← scoreTxn ""
          (extractDateStr (⟨none, some (.jstr "2024-01-15"), some (.jnum 0)⟩ :
            ExtractedData).date)
          (⟨none, some (.jstr "2024-01-15"), some (.jnum 0)⟩ : ExtractedData).total t
        Except.ok (t, s)) >>= fun scored =>
      Except.ok (((scored.filter (fun p => 10 ≤ p.2)).mergeSort
        (fun p q => q.2 ≤ p.2)).take 10)) = _
  rw [hpool, hscored, except_ok_bind]
  rw [List.filter_cons_of_pos (by norm_num), List.filter_nil]
  rw [List.mergeSort_singleton]
  rfl

/-- C8 amended: with a parseable receipt date, a truthy (nonzero) total
and a nonzero transaction amount — the nonzero conditions being what the
claim omits — the three scenarios hold: identical date and absolute
amount give `80 + merchant ∈ [80, 100]`; three days off with equal
amount gives `60 + merchant ∈ [50, 80]`; amount off by more than 5 and
date off by more than 7 days with no merchant contribution gives score 0,
and such a transaction never appears in any
`find_matching_transactions` result for that receipt. -/
theorem c8_amended_matching_scores (ed : ExtractedData) (merchant s : String)
    (d0 : PyDate) (v : JValue) (r : ℚ) (t : MTxn)
    (hm : extractMerchant ed.merchant = .ok merchant)
    (hs : extractDateStr ed.date = some s)
    (hd0 : pyStrptimeYmd s = some d0)
    (hv : ed.total = some v)
    (hvt : jTruthy v = true)
    (hr : totalToRat v = .ok r)
    (hamt : t.amount ≠ 0) :
    (dayDiff t.date d0 = 0 → |r| = |t.amount| →
      scoreTxn merchant (extractDateStr ed.date) ed.total t
        = .ok (80 + merchant_score merchant t) ∧
      80 ≤ 80 + merchant_score merchant t ∧ 80 + merchant_score merchant t ≤ 100) ∧
    ((dayDiff t.date d0).natAbs = 3 → |r| = |t.amount| →
      scoreTxn merchant (extractDateStr ed.date) ed.total t
        = .ok (60 + merchant_score merchant t) ∧
      50 ≤ 60 + merchant_score merchant t ∧ 60 + merchant_score merchant t ≤ 80) ∧
    (5 < abs (abs r - abs t.amount) → 7 < (dayDiff t.date d0).natAbs →
      merchant_score merchant t = 0 →
      scoreTxn merchant (extractDateStr ed.date) ed.total t = .ok 0 ∧
      (∀ (txns : List MTxn) (n : Nat) (res : List (MTxn × ℚ)) (q : ℚ),
        find_matching_transactions ed txns n = .ok res → (t, q) ∉ res)) := by
  have hms := merchant_score_cases merchant t
  have hamount40 : |r| = |t.amount| → amount_score ed.total t = .ok 40 := by
    intro habs
    rw [hv]
    unfold amount_score
    dsimp only
    rw [if_pos ⟨hvt, hamt⟩, hr]
    dsimp only
    rw [habs, sub_self, abs_zero, if_pos rfl]
  refine ⟨?_, ?_, ?_⟩
  · intro hdd habs
    have hd40 : dateScore (extractDateStr ed.date) t = 40 := by
      rw [hs]
      unfold dateScore
      dsimp only
      rw [hd0]
      dsimp only
      rw [hdd]
      rfl
    have hsc : scoreTxn merchant (extractDateStr ed.date) ed.total t
        = .ok (80 + merchant_score merchant t) := by
      unfold scoreTxn
      rw [hamount40 habs, except_ok_bind, hd40]
      norm_num
    refine ⟨hsc, ?_, ?_⟩
    · rcases hms with h | h | h <;> rw [h] <;> norm_num
    · rcases hms with h | h | h <;> rw [h] <;> norm_num
  · intro hdd habs
    have hd20 : dateScore (extractDateStr ed.date) t = 20 := by
      rw [hs]
      unfold dateScore
      dsimp only
      rw [hd0]
      dsimp only
      rw [hdd]
      norm_num
    have hsc : scoreTxn merchant (extractDateStr ed.date) ed.total t
        = .ok (60 + merchant_score merchant t) := by
      unfold scoreTxn
      rw [hamount40 habs, except_ok_bind, hd20]
      norm_num
    refine ⟨hsc, ?_, ?_⟩
    · rcases hms with h | h | h <;> rw [h] <;> norm_num
    · rcases hms with h | h | h <;> rw [h] <;> norm_num
  · intro hfar hdd hms0
    have hd0s : dateScore (extractDateStr ed.date) t = 0 := by
      rw [hs]
      unfold dateScore
      dsimp only
      rw [hd0]
      dsimp only
      rw [if_neg (by omega), if_neg (by omega), if_neg (by omega)]
    have ha0 : amount_score ed.total t = .ok 0 := by
      rw [hv]
      unfold amount_score
      dsimp only
      rw [if_pos ⟨hvt, hamt⟩, hr]
      dsimp only
      rw [if_neg (by intro h; rw [h] at hfar; norm_num at hfar),
        if_neg (by intro h; linarith), if_neg (by intro h; linarith),
        if_neg (by intro h; linarith)]
    have hsc : scoreTxn merchant (extractDateStr ed.date) ed.total t = .ok 0 := by
      unfold scoreTxn
      rw [ha0, except_ok_bind, hd0s, hms0]
      norm_num
    refine ⟨hsc, ?_⟩
    intro txns n res q hres hmem
    obtain ⟨h1, h2⟩ := find_matching_mem_inv ed merchant txns n res hm hres t q hmem
    rw [hsc] at h1
    injection h1 with hq0
    rw [← hq0] at h2
    norm_num at h2

/-- Witness for C8: a 42.99 receipt dated 2024-01-15 and the matching
REWE transaction of the same date and amount. -/
theorem c8_witness :
    scoreTxn "rewe" (extractDateStr (⟨some (.jstr "REWE"), some (.jstr "2024-01-15"),
        some (.jnum (4299 / 100))⟩ : ExtractedData).date)
      (⟨some (.jstr "REWE"), some (.jstr "2024-01-15"),
        some (.jnum (4299 / 100))⟩ : ExtractedData).total
      ⟨⟨2024, 1, 15⟩, -(4299 / 100), some "REWE Markt"⟩
      = .ok (80 + merchant_score "rewe" ⟨⟨2024, 1, 15⟩, -(4299 / 100), some "REWE Markt"⟩) ∧
    80 ≤ 80 + merchant_score "rewe" ⟨⟨2024, 1, 15⟩, -(4299 / 100), some "REWE Markt"⟩ ∧
    80 + merchant_score "rewe" ⟨⟨2024, 1, 15⟩, -(4299 / 100), some "REWE Markt"⟩ ≤ 100 :=
  (c8_amended_matching_scores
    ⟨some (.jstr "REWE"), some (.jstr "2024-01-15"), some (.jnum (4299 / 100))⟩
    "rewe" "2024-01-15" ⟨2024, 1, 15⟩ (.jnum (4299 / 100)) (4299 / 100)
    ⟨⟨2024, 1, 15⟩, -(4299 / 100), some "REWE Markt"⟩
    (by decide) rfl (by decide) rfl (by norm_num [jTruthy]) rfl
    (by norm_num)).1 (by decide) (by norm_num)

/-- C9 counterexample: an extracted-data record whose `merchant` key is
present but `null` makes `find_matching_transactions` raise
`AttributeError` (`None.lower()`), refuting totality over every record
shape. -/
theorem c9_counterexample :
    find_matching_transactions ⟨some JValue.jnull, none, none⟩ [] 10
      = .error PyErr.attributeError := rfl

/-- C9 amended: the matcher is total — returns a candidate list without
raising, absent components contributing 0 — over every record whose
`merchant`, when present, is a string and whose `total`, when a truthy
string, parses as a decimal; the date field may have any shape (absent,
null, non-string or unparseable).  Outside that domain it raises:
a null/non-string merchant (`AttributeError`), a truthy non-numeric
string total (uncaught `InvalidOperation`). -/
theorem c9_amended_totality (ed : ExtractedData) (txns : List MTxn) (maxResults : Nat)
    (hm : ∀ j, ed.merchant = some j → ∃ str, j = JValue.jstr str)
    (ht : ∀ str, ed.total = some (JValue.jstr str) → str ≠ "" →
      (pyDecimalOfString str).isSome = true) :
    ∃ res, find_matching_transactions ed txns maxResults = .ok res := by
  obtain ⟨merchant, hmok⟩ : ∃ m, extractMerchant ed.merchant = .ok m := by
    rcases hme : ed.merchant with _ | j
    · exact ⟨"", rfl⟩
    · rcases hm j hme with ⟨str, rfl⟩
      exact ⟨pyLower str, rfl⟩
  have hsc : ∀ t ∈ candidatePool (extractDateStr ed.date) txns,
      ∃ p, (do
        let s ← scoreTxn merchant (extractDateStr ed.date) ed.total t
        Except.ok (t, s) : Except PyErr (MTxn × ℚ)) = .ok p := by
    intro t _
    have hamount : ∃ a, amount_score ed.total t = .ok a := by
      rcases hto : ed.total with _ | v
      · exact ⟨0, rfl⟩
      · unfold amount_score
        dsimp only
        by_cases hg : jTruthy v = true ∧ t.amount ≠ 0
        · rw [if_pos hg]
          rcases v with _ | str | qq
          · exact absurd hg.1 (by simp [jTruthy])
          · have hne : str ≠ "" := by simpa [jTruthy] using hg.1
            have hsome := ht str hto hne
            rcases hpd : pyDecimalOfString str with _ | dd
            · rw [hpd] at hsome
              simp at hsome
            · have htr : totalToRat (.jstr str) = .ok dd.toRat := by
                unfold totalToRat
                dsimp only
                rw [hpd]
              rw [htr]
              dsimp only
              exact ⟨_, rfl⟩
          · have htr : totalToRat (.jnum qq) = .ok qq := rfl
            rw [htr]
            dsimp only
            exact ⟨_, rfl⟩
        · rw [if_neg hg]
          exact ⟨0, rfl⟩
    rcases hamount with ⟨a, ha⟩
    refine ⟨(t, dateScore (extractDateStr ed.date) t + a + merchant_score merchant t), ?_⟩
    show (scoreTxn merchant (extractDateStr ed.date) ed.total t >>= fun s =>
      Except.ok (t, s)) = _
    have hst : scoreTxn merchant (extractDateStr ed.date) ed.total t
        = .ok (dateScore (extractDateStr ed.date) t + a + merchant_score merchant t) := by
      unfold scoreTxn
      rw [ha, except_ok_bind]
    rw [hst, except_ok_bind]
  obtain ⟨scored, hscored⟩ := exceptMapM_ok_exists _ _ hsc
  refine ⟨((scored.filter (fun p => 10 ≤ p.2)).mergeSort
    (fun p q => q.2 ≤ p.2)).take maxResults, ?_⟩
  unfold find_matching_transactions
  rw [hmok, except_ok_bind]
  show ((candidatePool (extractDateStr ed.date) txns).mapM (fun t => do
    let s ← scoreTxn merchant (extractDateStr ed.date) ed.total t
    Except.ok (t, s)) >>= fun scored =>
    Except.ok (((scored.filter (fun p => 10 ≤ p.2)).mergeSort
      (fun p q => q.2 ≤ p.2)).take maxResults)) = _
  rw [hscored, except_ok_bind]

/-- Witness for C9: a record with merchant/total absent and a `null` date
is handled without raising (all components 0). -/
theorem c9_witness :
    ∃ res, find_matching_transactions ⟨none, some JValue.jnull, none⟩
      [⟨⟨2024, 1, 15⟩, -(4299 / 100), some "REWE Markt"⟩] 10 = .ok res :=
  c9_amended_totality ⟨none, some JValue.jnull, none⟩
    [⟨⟨2024, 1, 15⟩, -(4299 / 100), some "REWE Markt"⟩] 10
    (fun j hj => absurd hj (by simp))
    (fun str hstr => absurd hstr (by simp))

end Finanzpilot
